import Mathlib

/-!
# Verification of the Julabo FL1703 control stack

A shallow embedding, in Lean 4, of the parts of the `julabo_control`
Python package that the specification's testable claims are about:

* `core.py` — the serial device driver (`JulaboChiller.set_setpoint`,
  `set_running`, `start`, `stop`);
* `schedule.py` — `SetpointSchedule` (CSV parsing, saving, linear
  interpolation) and the insertion point of `ScheduleRunner`;
* `dispatch.py` — `dispatch_command` and `_normalize_boolean`;
* `remote_server.py` — `_RateLimiter`, `JulaboTCPServer.process_command`,
  the per-message handler loop and `_sanitize_error`.

Modelling conventions:

* Python floats are modelled as rationals (`ℚ`); the binary-float
  rounding of `"%.2f"` formatting is modelled as rounding to the nearest
  hundredth (`round` in Mathlib, which rounds halves up, while CPython
  rounds halves to even on the underlying binary value — the difference is
  confined to exact half-ulp inputs and does not affect any claim here).
* I/O with the device is modelled by an abstract backend record whose
  operations are state transformers returning `Except`; a read-back
  sequence observed by the driver is modelled as a function from the
  attempt index to `Option` of the parsed response (`none` = the read
  raised `TimeoutError`/`JulaboError`).
* Python exceptions are modelled as `Except` error values; mutations of
  an object are modelled by returning the updated state.
* Wall-clock / monotonic timestamps are explicit `ℚ` parameters.
* Threading, sleeps and the serial byte layer are outside the embedding;
  the functions below model the decision logic the claims quantify over.
-/

/-! ## core.py — constants and the setpoint driver -/

/-- `core.SETPOINT_MIN` -/
def SETPOINT_MIN : ℚ := -50

/-- `core.SETPOINT_MAX` -/
def SETPOINT_MAX : ℚ := 200

/-- Outcome of `JulaboChiller.set_setpoint` (core.py lines 156-184).
`validationError` is the `ValueError` raised for out-of-range values
(the spec's `ValidationError`); `stateUnknown` and `notAcknowledged`
are the two `JulaboError`s the verification loop can raise. -/
inductive SetSetpointResult where
  | validationError
  | ok
  | stateUnknown
  | notAcknowledged (expected observed : ℚ)
deriving DecidableEq, Repr

/-- One iteration of the verification loop in `set_setpoint`:
`read` is the outcome of the `get_setpoint()` read-back for this attempt
(`none` when the read raised `TimeoutError` or `JulaboError`), `isLast`
tells whether `attempt == 2`.  Returns `some` to leave the loop with a
result, `none` to `continue` with the next attempt. -/
def attemptStep (value : ℚ) (read : Option ℚ) (isLast : Bool) :
    Option SetSetpointResult :=
  match read with
  | none => if isLast then some .stateUnknown else none
  | some confirmed =>
    if |confirmed - value| ≤ 5/100 then some .ok
    else if isLast then some (.notAcknowledged value confirmed) else none

/-- The `for attempt in range(3)` verification loop of `set_setpoint`,
unrolled.  `reads i` is the outcome of the read-back on attempt `i`.
The final `.getD .stateUnknown` is unreachable: on the last attempt
`attemptStep` always yields `some`. -/
def verify_setpoint (value : ℚ) (reads : ℕ → Option ℚ) : SetSetpointResult :=
  match attemptStep value (reads 0) false with
  | some r => r
  | none =>
    match attemptStep value (reads 1) false with
    | some r => r
    | none => (attemptStep value (reads 2) true).getD .stateUnknown

/-- `JulaboChiller.set_setpoint` (core.py lines 156-184).  The boolean
component records whether the wire write `out_sp_00 ...` was issued. -/
def set_setpoint_core (value : ℚ) (reads : ℕ → Option ℚ) :
    Bool × SetSetpointResult :=
  if ¬(SETPOINT_MIN ≤ value ∧ value ≤ SETPOINT_MAX) then
    (false, .validationError)
  else
    (true, verify_setpoint value reads)

/-- Outcome of `JulaboChiller.set_running` (core.py lines 192-206).
`readError` is a `TimeoutError`/`JulaboError` raised by the single
`is_running()` read-back and propagated unchanged. -/
inductive SetRunningResult where
  | ok (confirmed : Bool)
  | notAcknowledged (expected observed : Bool)
  | readError
deriving DecidableEq, Repr

/-- `JulaboChiller.set_running` (core.py lines 192-206): issue the
`out_mode_05` write, then read the run flag back exactly once via
`is_running()`; a mismatch raises the "did not acknowledge" error
immediately.  `reads i` is the outcome a read-back on attempt `i` would
give; the source only ever performs attempt `0`. -/
def set_running_core (start : Bool) (reads : ℕ → Option Bool) :
    SetRunningResult :=
  match reads 0 with
  | none => .readError
  | some confirmed =>
    if confirmed ≠ start then .notAcknowledged start confirmed
    else .ok confirmed

/-- `JulaboChiller.start` (core.py lines 214-217). -/
def start_core (reads : ℕ → Option Bool) : SetRunningResult :=
  set_running_core true reads

/-- `JulaboChiller.stop` (core.py lines 219-222). -/
def stop_core (reads : ℕ → Option Bool) : SetRunningResult :=
  set_running_core false reads

/-- The behaviour claim C5 attributes to `set_running`: the "same
write-then-verify pattern as `setSetpoint`", i.e. up to 3 read-backs
with a delay, succeeding as soon as one matches, raising "not
acknowledged" only when no read-back ever matches, "state unknown" when
the last attempt's read fails.  This definition follows the claim's
words (not the source) and is compared against `set_running_core`. -/
def set_running_claimed (start : Bool) (reads : ℕ → Option Bool) :
    SetRunningResult :=
  let step : Option Bool → Bool → Option SetRunningResult := fun read isLast =>
    match read with
    | none => if isLast then some .readError else none
    | some confirmed =>
      if confirmed = start then some (.ok confirmed)
      else if isLast then some (.notAcknowledged start confirmed) else none
  match step (reads 0) false with
  | some r => r
  | none =>
    match step (reads 1) false with
    | some r => r
    | none => (step (reads 2) true).getD .readError

/-! ## schedule.py — data model and interpolation -/

/-- `schedule.ScheduleStep`. -/
structure ScheduleStep where
  elapsed_minutes : ℚ
  temperature : ℚ
deriving DecidableEq, Repr

/-- The bracketing-pair scan of `SetpointSchedule.setpoint_at`
(schedule.py lines 123-132): walk adjacent pairs, and on the first pair
with `a.elapsed_minutes ≤ e ≤ b.elapsed_minutes` interpolate linearly
(`span == 0` returns `b.temperature`); falling off the loop returns the
last step's temperature (the `# pragma: no cover` line). -/
def findPair (e : ℚ) : List ScheduleStep → ℚ
  | a :: b :: rest =>
    if a.elapsed_minutes ≤ e ∧ e ≤ b.elapsed_minutes then
      let span := b.elapsed_minutes - a.elapsed_minutes
      if span = 0 then b.temperature
      else a.temperature +
        (e - a.elapsed_minutes) / span * (b.temperature - a.temperature)
    else findPair e (b :: rest)
  | [a] => a.temperature
  | [] => 0

/-- `SetpointSchedule.setpoint_at` (schedule.py lines 107-132).
`none` models the `ValueError` raised on an empty schedule. -/
def setpoint_at (steps : List ScheduleStep) (elapsed_minutes : ℚ) : Option ℚ :=
  match steps with
  | [] => none
  | s0 :: rest =>
    let last := (s0 :: rest).getLast (by simp)
    if elapsed_minutes ≤ s0.elapsed_minutes then some s0.temperature
    else if last.elapsed_minutes ≤ elapsed_minutes then some last.temperature
    else some (findPair elapsed_minutes (s0 :: rest))

/-- `SetpointSchedule.duration_minutes` (schedule.py lines 134-139). -/
def duration_minutes (steps : List ScheduleStep) : ℚ :=
  match steps with
  | [] => 0
  | s0 :: rest =>
    ((s0 :: rest).getLast (by simp)).elapsed_minutes - s0.elapsed_minutes

/-! ## schedule.py — CSV (de)serialization

Cells of a CSV file are modelled as `List Char` (CSV quoting never
arises: the files written by `save_csv` contain only numerals and the
fixed header).  Python's `float()` on strings is modelled by
`pyFloatParse?` below; exotic accepted forms (`inf`/`nan`, exponent
notation, digit-group underscores) are not modelled — no value written
by `save_csv`, nor any value a claim quantifies over, uses them. -/

/-- The character for a decimal digit `n < 10`. -/
def digitChar (n : ℕ) : Char := Char.ofNat (48 + n)

/-- Decimal digits of `n`, most significant first (the numeral Python's
`str`/`"%f"` formatting produces for a natural number). -/
def natDigits (n : ℕ) : List Char :=
  if _h : n < 10 then [digitChar n]
  else natDigits (n / 10) ++ [digitChar (n % 10)]
termination_by n
decreasing_by exact Nat.div_lt_self (by omega) (by omega)

/-- Numeric value of a digit string (the core of `float()` parsing). -/
def digitsVal (cs : List Char) : ℕ :=
  cs.foldl (fun a c => 10 * a + (c.toNat - 48)) 0

/-- Strip leading and trailing whitespace, as `str.strip()` /
`float()`'s tolerance for surrounding whitespace. -/
def trimChars (cs : List Char) : List Char :=
  ((cs.dropWhile Char.isWhitespace).reverse.dropWhile Char.isWhitespace).reverse

/-- Split off a leading `-`/`+` sign, returning the sign as `±1`. -/
def signSplit (cs : List Char) : ℚ × List Char :=
  match cs with
  | [] => (1, [])
  | c :: rest =>
    if c = '-' then (-1, rest)
    else if c = '+' then (1, rest)
    else (1, c :: rest)

/-- Split at the first `'.'`: integer part, and `some` fractional part
when a dot is present. -/
def splitDot (cs : List Char) : List Char × Option (List Char) :=
  let ip := cs.takeWhile (fun c => !(c = '.' : Bool))
  match cs.dropWhile (fun c => !(c = '.' : Bool)) with
  | [] => (ip, none)
  | _ :: frac => (ip, some frac)

/-- Python `float(s)` on a plain decimal string: optional surrounding
whitespace, optional sign, digits with at most one `'.'`, at least one
digit overall.  `none` models the `ValueError` raised otherwise. -/
def pyFloatParse? (cs : List Char) : Option ℚ :=
  let t := trimChars cs
  let (sgn, rest) := signSplit t
  let (ip, fp?) := splitDot rest
  if ¬ ip.all Char.isDigit then none
  else
    match fp? with
    | none => if ip = [] then none else some (sgn * digitsVal ip)
    | some fp =>
      if ¬ fp.all Char.isDigit then none
      else if ip = [] ∧ fp = [] then none
      else some (sgn * ((digitsVal ip : ℚ) + (digitsVal fp : ℚ) / 10 ^ fp.length))

/-- The rational denoted by `"%.2f" % x`: `x` rounded to the nearest
hundredth (see the module comment on half-way cases). -/
def round2 (x : ℚ) : ℚ := (round (100 * x) : ℤ) / 100

/-- Two-digit zero-padded numeral for `k < 100` (the fractional part of
`"%.2f"` output). -/
def pad2 (k : ℕ) : List Char :=
  if k < 10 then '0' :: natDigits k else natDigits k

/-- The text `"%.2f" % x` writes into a CSV cell. -/
def fmt2 (x : ℚ) : List Char :=
  let n : ℤ := round (100 * x)
  let m := n.natAbs
  (if n < 0 then ['-'] else []) ++ natDigits (m / 100) ++ '.' :: pad2 (m % 100)

/-- `SetpointSchedule.save_csv` (schedule.py lines 97-103): a header row
followed by one `["%.2f" % elapsed_minutes, "%.2f" % temperature]` row
per step. -/
def save_csv (steps : List ScheduleStep) : List (List (List Char)) :=
  ["elapsed_minutes".toList, "temperature_c".toList] ::
    steps.map (fun s => [fmt2 s.elapsed_minutes, fmt2 s.temperature])

/-- The errors `SetpointSchedule._parse_csv` raises (all `ValueError`s
in the source; the constructors record the data the messages embed). -/
inductive CsvError where
  | floatParse
  | outOfRange (temp : ℚ)
  | noSteps
  | duplicateMinutes (dups : List ℚ)
deriving DecidableEq, Repr

/-- The row loop of `_parse_csv` (schedule.py lines 52-67): `i` is the
`enumerate` index; rows with fewer than two cells are skipped; a float
parse failure is skipped for the header row (`i == 0`) and raised
otherwise; an out-of-range temperature is raised at once. -/
def parseRowsAux (i : ℕ) : List (List (List Char)) →
    Except CsvError (List ScheduleStep)
  | [] => .ok []
  | row :: rest =>
    match row with
    | c0 :: c1 :: _ =>
      match pyFloatParse? c0, pyFloatParse? c1 with
      | some minutes, some temp =>
        if ¬(SETPOINT_MIN ≤ temp ∧ temp ≤ SETPOINT_MAX) then
          .error (.outOfRange temp)
        else do
          let steps ← parseRowsAux (i + 1) rest
          return ⟨minutes, temp⟩ :: steps
      | _, _ =>
        if i = 0 then parseRowsAux (i + 1) rest
        else .error .floatParse
    | _ => parseRowsAux (i + 1) rest

/-- Stable insertion of a step into a list sorted by `elapsed_minutes`
(equal keys keep their original relative order, as Python's stable
`list.sort`). -/
def insertStep (x : ScheduleStep) : List ScheduleStep → List ScheduleStep
  | [] => [x]
  | y :: rest =>
    if x.elapsed_minutes ≤ y.elapsed_minutes then x :: y :: rest
    else y :: insertStep x rest

/-- Stable sort by `elapsed_minutes`, modelling
`steps.sort(key=lambda s: s.elapsed_minutes)`. -/
def sortSteps : List ScheduleStep → List ScheduleStep
  | [] => []
  | x :: rest => insertStep x (sortSteps rest)

/-- The duplicate scan of `_parse_csv` (schedule.py lines 71-75): the
`elapsed_minutes` of every step equal to its predecessor in the sorted
list. -/
def duplicateMinutesList : List ScheduleStep → List ℚ
  | a :: b :: rest =>
    (if a.elapsed_minutes = b.elapsed_minutes then [b.elapsed_minutes] else [])
      ++ duplicateMinutesList (b :: rest)
  | _ => []

/-- `SetpointSchedule._parse_csv` (schedule.py lines 48-81): parse the
rows, require at least one step, sort by elapsed minutes, reject
duplicate elapsed-minute values. -/
def _parse_csv (rows : List (List (List Char))) :
    Except CsvError (List ScheduleStep) := do
  let steps ← parseRowsAux 0 rows
  if steps = [] then throw .noSteps
  let steps := sortSteps steps
  let dups := duplicateMinutesList steps
  if dups = [] then return steps
  else throw (.duplicateMinutes dups.dedup)

/-- `save_csv` followed by `load_csv` of the written file (the C7
round trip). -/
def save_then_load (steps : List ScheduleStep) :
    Except CsvError (List ScheduleStep) :=
  _parse_csv (save_csv steps)

/-- A step with both fields as the values `"%.2f"` wrote. -/
def round2Step (s : ScheduleStep) : ScheduleStep :=
  ⟨round2 s.elapsed_minutes, round2 s.temperature⟩

/-! ## remote_server.py — the rate limiter -/

/-- `remote_server._RateLimiter` (lines 52-79).  The `dict` of deques is
modelled as a map from keys to `Option` timestamp lists (`none` = no
entry); deques are appended at the back, so a stored list is in arrival
order. -/
structure RateLimiter where
  max_requests : ℕ
  window : ℚ
  requests : String → Option (List ℚ)

/-- The `while q and q[0] < now - window: q.popleft()` purge: drop
leading entries strictly older than the cutoff. -/
def rlPurge (cutoff : ℚ) (q : List ℚ) : List ℚ :=
  q.dropWhile (fun x => decide (x < cutoff))

/-- Point update of the requests map. -/
def rlUpdate (m : String → Option (List ℚ)) (ip : String)
    (v : Option (List ℚ)) : String → Option (List ℚ) :=
  fun k => if k = ip then v else m k

/-- `_RateLimiter.allow` (remote_server.py lines 61-79): purge the key's
expired timestamps, evict the entry if it became empty, deny when the
remaining count is at or above the maximum, otherwise record `now` and
allow. -/
def allow (rl : RateLimiter) (ip : String) (now : ℚ) : Bool × RateLimiter :=
  let q1 : Option (List ℚ) :=
    match rl.requests ip with
    | some q =>
      let p := rlPurge (now - rl.window) q
      if p = [] then none else some p
    | none => none
  match q1 with
  | some p =>
    if rl.max_requests ≤ p.length then
      (false, { rl with requests := rlUpdate rl.requests ip (some p) })
    else
      (true, { rl with requests := rlUpdate rl.requests ip (some (p ++ [now])) })
  | none =>
    (true, { rl with requests := rlUpdate rl.requests ip (some [now]) })

/-- A fresh limiter with no recorded requests. -/
def emptyLimiter (max_requests : ℕ) (window : ℚ) : RateLimiter :=
  ⟨max_requests, window, fun _ => none⟩

/-- The limiter state after calls at times `t 0, …, t (k-1)` for one
key, starting from `rl`. -/
def allowRun (rl : RateLimiter) (ip : String) (t : ℕ → ℚ) : ℕ → RateLimiter
  | 0 => rl
  | k + 1 => (allow (allowRun rl ip t k) ip (t k)).2

/-- Outcome of the `k`-th call (0-based) in the same call sequence. -/
def allowResult (rl : RateLimiter) (ip : String) (t : ℕ → ℚ) (k : ℕ) : Bool :=
  (allow (allowRun rl ip t k) ip (t k)).1

/-! ## dispatch.py and remote_server.py — commands and the gateway -/

/-- JSON values as they appear in request/response payloads. -/
inductive JVal where
  | s (v : String)
  | n (v : ℚ)
  | b (v : Bool)
  | obj (fields : List (String × JVal))

/-- A decoded request object.  Absent and JSON-`null` fields are both
modelled as `none` (Python's `dict.get` returns `None` for both). -/
structure Message where
  command : Option String := none
  value : Option JVal := none
  chiller_id : Option String := none
  token : Option String := none
  csv : Option (List Char) := none

/-- The Python exception classes the gateway distinguishes
(`_sanitize_error`, remote_server.py lines 664-676).  `jsonDecodeError`
is a `ValueError` subclass and is represented by `valueError`;
`serialException` covers everything mapped to the generic message. -/
inductive PyErr where
  | permissionError
  | valueError (msg : String)
  | typeError
  | timeoutError
  | julaboError (msg : String)
  | serialException (msg : String)
deriving DecidableEq, Repr

/-- Python `float(value)` as used in `dispatch_command` for
`set_setpoint`: numbers pass through, booleans become 0/1, strings are
parsed (`ValueError` on failure), anything else is a `TypeError`. -/
def pyFloat? (v : JVal) : Except PyErr ℚ :=
  match v with
  | .n q => .ok q
  | .b b => .ok (if b then 1 else 0)
  | .s s =>
    match pyFloatParse? s.toList with
    | some q => .ok q
    | none => .error (.valueError ("could not convert string to float: " ++ s))
  | .obj _ => .error .typeError

/-- `str.lower()`. -/
def lowerChars (cs : List Char) : List Char := cs.map Char.toLower

/-- `value.strip().lower()` in `_normalize_boolean`. -/
def pyNormalize (s : String) : List Char := lowerChars (trimChars s.toList)

/-- The strings `_normalize_boolean` maps to `True`. -/
def trueStrings : List (List Char) :=
  ["1".toList, "true".toList, "on".toList, "start".toList, "run".toList]

/-- The strings `_normalize_boolean` maps to `False`. -/
def falseStrings : List (List Char) :=
  ["0".toList, "false".toList, "off".toList, "stop".toList, "halt".toList]

/-- `dispatch._normalize_boolean` (dispatch.py lines 12-25). -/
def _normalize_boolean (value : JVal) : Except PyErr Bool :=
  match value with
  | .b b => .ok b
  | .n q => .ok (decide (q ≠ 0))
  | .s s =>
    let normalized := pyNormalize s
    if normalized ∈ trueStrings then .ok true
    else if normalized ∈ falseStrings then .ok false
    else .error (.valueError
      "Unable to interpret 'value' for set_running. Use a boolean, number, or supported string.")
  | .obj _ => .error (.valueError
      "Unable to interpret 'value' for set_running. Use a boolean, number, or supported string.")

/-- One call the dispatcher makes on the chiller backend — the unit of
"device operation" the frame claims count. -/
inductive DevCall where
  | identify
  | get_status
  | get_setpoint
  | get_temperature
  | is_running
  | set_setpoint (v : ℚ)
  | set_running (b : Bool)
deriving DecidableEq, Repr

/-- A chiller backend over state `σ` (the structural `ChillerBackend`
protocol of core.py): each operation either raises or returns a value
plus the updated device state.  `start`/`stop` are derived, as in both
implementations. -/
structure Backend (σ : Type) where
  identify : σ → Except PyErr (String × σ)
  get_status : σ → Except PyErr (String × σ)
  get_setpoint : σ → Except PyErr (ℚ × σ)
  set_setpoint : ℚ → σ → Except PyErr σ
  get_temperature : σ → Except PyErr (ℚ × σ)
  is_running : σ → Except PyErr (Bool × σ)
  set_running : Bool → σ → Except PyErr (Bool × σ)

/-- `dispatch.dispatch_command` (dispatch.py lines 28-74).  Returns the
result (or the raised exception), the device state after the call, and
the list of backend operations performed.  On an exception, state
changes made before the raise persist, as in Python. -/
def dispatch_command {σ : Type} (B : Backend σ) (s : σ) (command : String)
    (msg : Message) : Except PyErr JVal × σ × List DevCall :=
  if command = "identify" then
    match B.identify s with
    | .ok (r, s') => (.ok (.s r), s', [.identify])
    | .error e => (.error e, s, [.identify])
  else if command = "status" then
    match B.get_status s with
    | .ok (r, s') => (.ok (.s r), s', [.get_status])
    | .error e => (.error e, s, [.get_status])
  else if command = "get_setpoint" then
    match B.get_setpoint s with
    | .ok (r, s') => (.ok (.n r), s', [.get_setpoint])
    | .error e => (.error e, s, [.get_setpoint])
  else if command = "set_setpoint" then
    match msg.value with
    | none => (.error (.valueError "'set_setpoint' requires a numeric 'value'"), s, [])
    | some jv =>
      match pyFloat? jv with
      | .error e => (.error e, s, [])
      | .ok q =>
        match B.set_setpoint q s with
        | .error e => (.error e, s, [.set_setpoint q])
        | .ok s1 =>
          match B.get_setpoint s1 with
          | .error e => (.error e, s1, [.set_setpoint q, .get_setpoint])
          | .ok (r, s2) => (.ok (.n r), s2, [.set_setpoint q, .get_setpoint])
  else if command = "temperature" then
    match B.get_temperature s with
    | .ok (r, s') => (.ok (.n r), s', [.get_temperature])
    | .error e => (.error e, s, [.get_temperature])
  else if command = "is_running" then
    match B.is_running s with
    | .ok (r, s') => (.ok (.b r), s', [.is_running])
    | .error e => (.error e, s, [.is_running])
  else if command = "start" then
    match B.set_running true s with
    | .ok (r, s') => (.ok (.b r), s', [.set_running true])
    | .error e => (.error e, s, [.set_running true])
  else if command = "stop" then
    match B.set_running false s with
    | .ok (r, s') => (.ok (.b r), s', [.set_running false])
    | .error e => (.error e, s, [.set_running false])
  else if command = "set_running" then
    match msg.value with
    | none => (.error (.valueError "'set_running' requires a boolean 'value'"), s, [])
    | some jv =>
      match _normalize_boolean jv with
      | .error e => (.error e, s, [])
      | .ok target =>
        match B.set_running target s with
        | .ok (r, s') => (.ok (.b r), s', [.set_running target])
        | .error e => (.error e, s, [.set_running target])
  else if command = "status_all" then
    match B.get_status s with
    | .error e => (.error e, s, [.get_status])
    | .ok (st, s1) =>
      match B.get_temperature s1 with
      | .error e => (.error e, s1, [.get_status, .get_temperature])
      | .ok (tp, s2) =>
        match B.get_setpoint s2 with
        | .error e => (.error e, s2, [.get_status, .get_temperature, .get_setpoint])
        | .ok (sp, s3) =>
          match B.is_running s3 with
          | .error e =>
            (.error e, s3, [.get_status, .get_temperature, .get_setpoint, .is_running])
          | .ok (ir, s4) =>
            (.ok (.obj [("status", .s st), ("temperature", .n tp),
                        ("setpoint", .n sp), ("is_running", .b ir)]),
             s4, [.get_status, .get_temperature, .get_setpoint, .is_running])
  else if command = "ping" then
    (.ok (.s "pong"), s, [])
  else
    (.error (.valueError ("Unsupported command: " ++ command)), s, [])

/-- `dispatch._WRITE_COMMANDS` (dispatch.py line 9). -/
def _WRITE_COMMANDS : List String := ["set_setpoint", "start", "stop", "set_running"]

/-- `_SCHEDULE_WRITE` (remote_server.py line 236). -/
def _SCHEDULE_WRITE : List String := ["load_schedule", "stop_schedule"]

/-- `PROTOCOL_VERSION` (remote_server.py line 35). -/
def PROTOCOL_VERSION : ℚ := 2

/-- A response envelope: the JSON object written back to the client,
as an ordered field list. -/
def Response := List (String × JVal)

/-- The `{"status": "ok", "result": ..., "protocol_version": ...}`
envelope (remote_server.py lines 249 and 306). -/
def okResp (result : JVal) : Response :=
  [("status", .s "ok"), ("result", result), ("protocol_version", .n PROTOCOL_VERSION)]

/-- The read-only rejection (remote_server.py line 238). -/
def readOnlyResp : Response :=
  [("status", .s "error"), ("error", .s "Server is in read-only mode")]

/-- The serial-disconnected response (remote_server.py lines 252-256). -/
def serialLostResp : Response :=
  [("status", .s "error"), ("error", .s "Serial connection lost, reconnecting...")]

/-- The oversized-message response (`_handle_loop`, line 444). -/
def oversizedResp : Response :=
  [("status", .s "error"), ("error", .s "Message too large")]

/-- The rate-limit response (`_handle_loop`, line 457). -/
def rateLimitResp : Response :=
  [("status", .s "error"), ("error", .s "Rate limit exceeded")]

/-- `remote_server._sanitize_error` (lines 664-676). -/
def _sanitize_error : PyErr → String
  | .permissionError => "Authentication failed"
  | .valueError m => "Invalid request: " ++ m
  | .typeError => "Invalid argument type"
  | .timeoutError => "Device timeout"
  | .julaboError m => "Device error: " ++ m
  | .serialException _ => "Internal server error"

/-- The sanitized error envelope `_handle_loop` writes for a raised
exception (lines 469-470). -/
def errorResp (e : PyErr) : Response :=
  [("status", .s "error"), ("error", .s (_sanitize_error e))]

/-- A `ScheduleRunner` as stored in `_schedule_runners`: runners are
created by `_load_schedule` via `runner.start()`, so `start_time` is
always set.  The background ticker thread is outside the embedding. -/
structure Runner where
  schedule : List ScheduleStep
  start_time : ℚ
  finished : Bool

/-- The rational denoted by Python `round(x, 1)` (banker's rounding on
half-way binary values is modelled as round-half-up, as in `round2`). -/
def round1 (x : ℚ) : ℚ := (round (10 * x) : ℤ) / 10

/-- Split a character list at every occurrence of `sep`. -/
def splitOnChar (sep : Char) : List Char → List (List Char)
  | [] => [[]]
  | c :: rest =>
    let r := splitOnChar sep rest
    if c = sep then [] :: r
    else match r with
      | first :: others => (c :: first) :: others
      | [] => [[c]]

/-- `SetpointSchedule.from_csv_string` (schedule.py lines 92-95):
split the text into lines and comma-separated cells, then parse.
CSV quoting is not modelled (schedule files are plain numerals). -/
def from_csv_string (csv : List Char) : Except CsvError (List ScheduleStep) :=
  _parse_csv ((splitOnChar '\n' csv).map (splitOnChar ','))

/-- The gateway state `process_command` consults: the registry of
chillers by id, the schedule runners, and the configuration flags
(`JulaboTCPServer.__init__`, remote_server.py lines 92-124).
`audit_enabled` stands for `_audit_logger is not None`. -/
structure Server (σ : Type) where
  auth_token : Option String
  read_only : Bool
  serial_connected : Bool
  audit_enabled : Bool
  chillers : String → Option σ
  runners : String → Option Runner

/-- Point update of a chiller registry. -/
def chUpdate {σ : Type} (m : String → Option σ) (id : String) (v : σ) :
    String → Option σ :=
  fun k => if k = id then some v else m k

/-- Point update of the runner map. -/
def runUpdate (m : String → Option Runner) (id : String) (v : Option Runner) :
    String → Option Runner :=
  fun k => if k = id then v else m k

/-- Message of the `ValueError` a `CsvError` carries in the source. -/
def csvErrMsg : CsvError → String
  | .floatParse => "could not convert string to float"
  | .outOfRange _ => "Temperature in schedule is outside the allowed range"
  | .noSteps => "No valid schedule steps found in <string>"
  | .duplicateMinutes _ => "Duplicate elapsed_minutes values in schedule"

/-- `JulaboTCPServer._get_schedule_status` (remote_server.py lines
395-410).  `setpoint_at` is total here because parsed schedules are
nonempty; `getD 0` is unreachable. -/
def get_schedule_status (runners : String → Option Runner) (cid : String)
    (now : ℚ) : JVal :=
  match runners cid with
  | none => .obj [("running", .b false)]
  | some r =>
    if r.finished then .obj [("running", .b false)]
    else
      let elapsed := (now - r.start_time) / 60
      let total := duration_minutes r.schedule
      let target := (setpoint_at r.schedule elapsed).getD 0
      let pct := if 0 < total then min 100 (elapsed / total * 100) else 100
      .obj [("running", .b true),
            ("elapsed_minutes", .n (round1 elapsed)),
            ("total_minutes", .n (round1 total)),
            ("current_target", .n (round2 target)),
            ("progress_pct", .n (round1 pct))]

/-- Whether the auth gate rejects the message (remote_server.py lines
224-227). -/
def authRejected {σ : Type} (srv : Server σ) (msg : Message) : Bool :=
  match srv.auth_token with
  | some tk => decide (msg.token ≠ some tk)
  | none => false

/-- The audit old-value capture (remote_server.py lines 262-270): a
best-effort device read before a write command, whose failure is
swallowed (the failed read is modelled as state-preserving). -/
def audit_capture {σ : Type} (B : Backend σ) (audit_enabled : Bool)
    (cmd : String) (cs : σ) : σ × List DevCall :=
  if audit_enabled ∧ cmd ∈ _WRITE_COMMANDS then
    if cmd = "set_setpoint" then
      match B.get_setpoint cs with
      | .ok (_, s') => (s', [.get_setpoint])
      | .error _ => (cs, [.get_setpoint])
    else
      match B.is_running cs with
      | .ok (_, s') => (s', [.is_running])
      | .error _ => (cs, [.is_running])
  else (cs, [])

/-- The body of `process_command` executed under the device mutex
(remote_server.py lines 260-290), after the chiller `cs` under id `cid`
has been resolved: audit capture, the schedule branches, and the
dispatcher. -/
def process_locked {σ : Type} (B : Backend σ) (srv : Server σ)
    (msg : Message) (now : ℚ) (cmd cid : String) (cs : σ) :
    Except PyErr Response × (String → Option σ) × (String → Option Runner) ×
      List DevCall :=
  let cap := audit_capture B srv.audit_enabled cmd cs
  let cs1 := cap.1
  let auditCalls := cap.2
  if cmd = "load_schedule" then
    match msg.csv with
    | none =>
      (.error (.valueError "'load_schedule' requires a 'csv' string"),
       chUpdate srv.chillers cid cs1, srv.runners, auditCalls)
    | some csv =>
      if csv = [] then
        (.error (.valueError "'load_schedule' requires a 'csv' string"),
         chUpdate srv.chillers cid cs1, srv.runners, auditCalls)
      else
        match from_csv_string csv with
        | .error e =>
          (.error (.valueError (csvErrMsg e)),
           chUpdate srv.chillers cid cs1, srv.runners, auditCalls)
        | .ok steps =>
          let runner : Runner := ⟨steps, now, false⟩
          (.ok (okResp (.obj
              [("steps", .n steps.length),
               ("duration_minutes", .n (duration_minutes steps))])),
           chUpdate srv.chillers cid cs1,
           runUpdate srv.runners cid (some runner), auditCalls)
  else if cmd = "stop_schedule" then
    (.ok (okResp (.s "stopped")),
     chUpdate srv.chillers cid cs1,
     runUpdate srv.runners cid none, auditCalls)
  else if cmd = "schedule_status" then
    (.ok (okResp (get_schedule_status srv.runners cid now)),
     chUpdate srv.chillers cid cs1, srv.runners, auditCalls)
  else
    match dispatch_command B cs1 cmd msg with
    | (.error e, s2, calls) =>
      (.error e, chUpdate srv.chillers cid s2, srv.runners,
       auditCalls ++ calls)
    | (.ok r, s2, calls) =>
      (.ok (okResp r), chUpdate srv.chillers cid s2, srv.runners,
       auditCalls ++ calls)

/-- `JulaboTCPServer.process_command` (remote_server.py lines 221-306),
for one message at wall-clock time `now`.  Returns the response (or the
exception it raises to `_handle_loop`), the chiller registry and runner
map after the call, and the device operations performed.  Metrics and
logging have no observable effect and are omitted. -/
def process_command {σ : Type} (B : Backend σ) (srv : Server σ)
    (msg : Message) (now : ℚ) :
    Except PyErr Response × (String → Option σ) × (String → Option Runner) ×
      List DevCall :=
  if authRejected srv msg then
    (.error .permissionError, srv.chillers, srv.runners, [])
  else
    match msg.command with
    | none =>
      (.error (.valueError "Missing 'command' in request payload"),
       srv.chillers, srv.runners, [])
    | some cmd =>
      if cmd = "" then
        (.error (.valueError "Missing 'command' in request payload"),
         srv.chillers, srv.runners, [])
      else if srv.read_only ∧ (cmd ∈ _WRITE_COMMANDS ∨ cmd ∈ _SCHEDULE_WRITE) then
        (.ok readOnlyResp, srv.chillers, srv.runners, [])
      else if cmd = "ping" then
        (.ok (okResp (.s "pong")), srv.chillers, srv.runners, [])
      else if ¬srv.serial_connected then
        (.ok serialLostResp, srv.chillers, srv.runners, [])
      else
        let cid := msg.chiller_id.getD "default"
        match srv.chillers cid with
        | none =>
          (.error (.valueError ("Unknown chiller_id: " ++ cid)),
           srv.chillers, srv.runners, [])
        | some cs => process_locked B srv msg now cmd cid cs

/-- What one iteration of `_handle_loop` received: an oversized line, a
blank line, or a line whose JSON decode either failed (with the
`JSONDecodeError` message, a `ValueError` subclass) or produced a
message. -/
inductive RawInput where
  | oversized
  | blank
  | line (parsed : Except String Message)

/-- One iteration of `JulaboRequestHandler._handle_loop`
(remote_server.py lines 432-483) for a received line: `allowed` is the
rate limiter's verdict for this client.  Returns the response written
back (`none` for a blank line, which writes nothing), the updated
registry/runner maps, and the device operations performed. -/
def handle_one {σ : Type} (B : Backend σ) (srv : Server σ) (raw : RawInput)
    (allowed : Bool) (now : ℚ) :
    Option Response × (String → Option σ) × (String → Option Runner) ×
      List DevCall :=
  match raw with
  | .oversized => (some oversizedResp, srv.chillers, srv.runners, [])
  | .blank => (none, srv.chillers, srv.runners, [])
  | .line parsed =>
    if ¬allowed then (some rateLimitResp, srv.chillers, srv.runners, [])
    else
      match parsed with
      | .error emsg =>
        (some (errorResp (.valueError emsg)), srv.chillers, srv.runners, [])
      | .ok msg =>
        match process_command B srv msg now with
        | (.ok resp, ch, ru, calls) => (some resp, ch, ru, calls)
        | (.error e, ch, ru, calls) => (some (errorResp e), ch, ru, calls)

/-- `simulator.FakeChillerState`, without the thermal-drift fields
(`update()` uses wall-clock time and Gaussian noise and is outside the
embedding; `get_temperature` returns the stored temperature). -/
structure FakeChillerState where
  setpoint : ℚ := 20
  temperature : ℚ := 20
  running : Bool := false
  identity : String := "JULABO FL1703 Simulator"
  status_code : String := "01 OK"
deriving DecidableEq, Repr

/-- `simulator.FakeChillerBackend` as a `Backend` (simulator.py lines
55-116). -/
def fakeBackend : Backend FakeChillerState where
  identify := fun s => .ok (s.identity, s)
  get_status := fun s => .ok (s.status_code, s)
  get_setpoint := fun s => .ok (s.setpoint, s)
  set_setpoint := fun v s =>
    if ¬(SETPOINT_MIN ≤ v ∧ v ≤ SETPOINT_MAX) then
      .error (.valueError "Setpoint is outside the allowed range")
    else .ok { s with setpoint := v }
  get_temperature := fun s => .ok (s.temperature, s)
  is_running := fun s => .ok (s.running, s)
  set_running := fun b s => .ok (b, { s with running := b })

/-! ## Theorems -/

/-- C1: `set_setpoint(v)` with `v` outside `[-50, 200]` raises
`ValidationError` before any wire write; otherwise the write is issued
and the setpoint read back up to 3 times, succeeding as soon as a
read-back is within 0.05 of `v`; all three read-backs timing out raises
the distinct "state unknown" error; read-backs that succeed but never
match within 0.05 raise "not acknowledged" naming expected and observed
values. -/
theorem C1_set_setpoint_spec (v : ℚ) (reads : ℕ → Option ℚ) :
    (¬(SETPOINT_MIN ≤ v ∧ v ≤ SETPOINT_MAX) →
      set_setpoint_core v reads = (false, .validationError)) ∧
    (SETPOINT_MIN ≤ v ∧ v ≤ SETPOINT_MAX →
      (set_setpoint_core v reads).1 = true ∧
      ((∀ i < 3, reads i = none) →
        (set_setpoint_core v reads).2 = .stateUnknown) ∧
      (∀ c0 c1 c2, reads 0 = some c0 → reads 1 = some c1 → reads 2 = some c2 →
        5/100 < |c0 - v| → 5/100 < |c1 - v| → 5/100 < |c2 - v| →
        (set_setpoint_core v reads).2 = .notAcknowledged v c2) ∧
      (∀ i < 3, ∀ c, reads i = some c → |c - v| ≤ 5/100 →
        (∀ j < i, ∀ c', reads j = some c' → 5/100 < |c' - v|) →
        (set_setpoint_core v reads).2 = .ok)) := by
  constructor
  · intro h
    simp [set_setpoint_core, h]
  · intro h
    refine ⟨by simp [set_setpoint_core, h], ?_, ?_, ?_⟩
    · intro hall
      have h0 := hall 0 (by norm_num)
      have h1 := hall 1 (by norm_num)
      have h2 := hall 2 (by norm_num)
      simp [set_setpoint_core, h, verify_setpoint, attemptStep, h0, h1, h2]
    · intro c0 c1 c2 e0 e1 e2 m0 m1 m2
      simp [set_setpoint_core, h, verify_setpoint, attemptStep, e0, e1, e2,
        not_le.2 m0, not_le.2 m1, not_le.2 m2]
    · intro i hi c hc hmatch hearlier
      have hb : ¬¬(SETPOINT_MIN ≤ v ∧ v ≤ SETPOINT_MAX) := not_not_intro h
      interval_cases i
      · simp only [set_setpoint_core, if_neg hb, verify_setpoint]
        simp [attemptStep, hc, hmatch]
      · have step0 : attemptStep v (reads 0) false = none := by
          cases e0 : reads 0 with
          | none => simp [attemptStep]
          | some c' =>
            have := hearlier 0 (by norm_num) c' e0
            simp [attemptStep, not_le.2 this]
        simp only [set_setpoint_core, if_neg hb, verify_setpoint, step0]
        simp [attemptStep, hc, hmatch]
      · have step0 : attemptStep v (reads 0) false = none := by
          cases e0 : reads 0 with
          | none => simp [attemptStep]
          | some c' =>
            have := hearlier 0 (by norm_num) c' e0
            simp [attemptStep, not_le.2 this]
        have step1 : attemptStep v (reads 1) false = none := by
          cases e1 : reads 1 with
          | none => simp [attemptStep]
          | some c' =>
            have := hearlier 1 (by norm_num) c' e1
            simp [attemptStep, not_le.2 this]
        simp only [set_setpoint_core, if_neg hb, verify_setpoint, step0, step1]
        simp [attemptStep, hc, hmatch]

/-- Witness for C1 at concrete inputs: `v = 25` with an immediately
matching read-back succeeds after a wire write, and `v = 300` is
rejected before any wire write. -/
theorem C1_set_setpoint_spec_witness :
    set_setpoint_core 25 (fun _ => some 25) = (true, .ok) ∧
    set_setpoint_core 300 (fun _ => some 300) = (false, .validationError) := by
  constructor
  · have h := (C1_set_setpoint_spec 25 (fun _ => some 25)).2
      (by norm_num [SETPOINT_MIN, SETPOINT_MAX])
    have hok := h.2.2.2 0 (by norm_num) 25 rfl (by norm_num)
      (by intro j hj; omega)
    exact Prod.ext_iff.2 ⟨h.1, hok⟩
  · exact (C1_set_setpoint_spec 300 (fun _ => some 300)).1
      (by norm_num [SETPOINT_MIN, SETPOINT_MAX])

/-- C5 counterexample: with read-backs `false, true, true` for request
`true`, the claimed up-to-3-read-backs pattern would succeed on the
second attempt, but `set_running` reads back only once and raises
"did not acknowledge" immediately. -/
theorem C5_counterexample :
    set_running_core true (fun i => if i = 0 then some false else some true) =
      .notAcknowledged true false ∧
    set_running_claimed true (fun i => if i = 0 then some false else some true) =
      .ok true := by
  constructor <;> rfl

/-- C5 as amended: `set_running(start)` issues the write and reads the
running state back exactly once, with no retry or delay; a mismatched
read-back immediately raises "not acknowledged" naming the expected and
observed states; on success it returns the confirmed state; and
`start()`/`stop()` are `set_running(True)`/`set_running(False)`. -/
theorem C5_set_running_amended (start : Bool) (reads : ℕ → Option Bool) :
    (reads 0 = some start → set_running_core start reads = .ok start) ∧
    (∀ b, reads 0 = some b → b ≠ start →
      set_running_core start reads = .notAcknowledged start b) ∧
    (∀ reads' : ℕ → Option Bool, reads 0 = reads' 0 →
      set_running_core start reads = set_running_core start reads') ∧
    start_core reads = set_running_core true reads ∧
    stop_core reads = set_running_core false reads := by
  refine ⟨?_, ?_, ?_, rfl, rfl⟩
  · intro h
    simp [set_running_core, h]
  · intro b h hne
    simp [set_running_core, h, hne]
  · intro reads' h
    simp only [set_running_core, h]

/-- Witness for C5's amended claim: a matching single read-back
confirms, a mismatched one raises "not acknowledged". -/
theorem C5_set_running_amended_witness :
    set_running_core true (fun _ => some true) = .ok true ∧
    set_running_core true (fun _ => some false) = .notAcknowledged true false := by
  constructor
  · exact (C5_set_running_amended true (fun _ => some true)).1 rfl
  · exact (C5_set_running_amended true (fun _ => some false)).2.1 false rfl
      (by decide)

/-- C8 counterexample: the string `"run"` is none of `on/off`,
`start/stop`, `1/0`, `true/false`, yet `_normalize_boolean` accepts it
as `True` instead of raising `ValidationError` (the source also accepts
`"halt"` as `False`). -/
theorem C8_counterexample :
    (pyNormalize "run" ∉
      ["on".toList, "off".toList, "start".toList, "stop".toList,
       "1".toList, "0".toList, "true".toList, "false".toList]) ∧
    _normalize_boolean (.s "run") = .ok true := by
  constructor
  · decide
  · rfl

/-- C8 as amended: `set_running`'s value accepts booleans as-is, numbers
as `(v != 0)`, and the whitespace-stripped, lowercased strings
`on/off`, `start/stop`, `run/halt`, `1/0`, `true/false`; every other
value raises `ValidationError`, and in that case `dispatch_command`
performs no device operation and leaves the device state unchanged. -/
theorem C8_normalize_boolean_amended (v : JVal) :
    (∀ b, v = .b b → _normalize_boolean v = .ok b) ∧
    (∀ q, v = .n q → _normalize_boolean v = .ok (decide (q ≠ 0))) ∧
    (∀ s, v = .s s →
      (pyNormalize s ∈ trueStrings → _normalize_boolean v = .ok true) ∧
      (pyNormalize s ∈ falseStrings → _normalize_boolean v = .ok false) ∧
      (pyNormalize s ∉ trueStrings → pyNormalize s ∉ falseStrings →
        _normalize_boolean v = .error (.valueError
          "Unable to interpret 'value' for set_running. Use a boolean, number, or supported string."))) ∧
    (∀ m, _normalize_boolean v = .error m →
      ∀ {σ : Type} (B : Backend σ) (s : σ) (msg : Message),
        msg.value = some v →
        dispatch_command B s "set_running" msg = (.error m, s, [])) := by
  refine ⟨?_, ?_, ?_, ?_⟩
  · rintro b rfl; rfl
  · rintro q rfl; rfl
  · rintro s rfl
    refine ⟨?_, ?_, ?_⟩
    · intro hmem
      simp [_normalize_boolean, hmem]
    · intro hmem
      have h1 : pyNormalize s ∉ trueStrings := by
        intro h1
        simp only [trueStrings] at h1
        simp only [falseStrings] at hmem
        simp only [List.mem_cons, List.not_mem_nil, or_false] at h1 hmem
        rcases h1 with h | h | h | h | h <;> rw [h] at hmem <;> revert hmem <;>
          decide
      simp [_normalize_boolean, h1, hmem]
    · intro h1 h2
      simp [_normalize_boolean, h1, h2]
  · intro m hm σ B s msg hv
    simp [dispatch_command, hv, hm]

/-- Witness for C8's amended claim: `"ON"` (case-insensitive) maps to
`True`, and the unsupported string `"maybe"` raises `ValidationError`
with no device operation from the dispatcher. -/
theorem C8_normalize_boolean_amended_witness :
    _normalize_boolean (.s "ON") = .ok true ∧
    dispatch_command fakeBackend {} "set_running"
        { value := some (.s "maybe") } =
      (.error (.valueError
        "Unable to interpret 'value' for set_running. Use a boolean, number, or supported string."),
       {}, []) := by
  constructor
  · exact (((C8_normalize_boolean_amended (.s "ON")).2.2.1 "ON" rfl).1 (by decide))
  · refine (C8_normalize_boolean_amended (.s "maybe")).2.2.2 _ ?_ fakeBackend {} _ rfl
    exact ((C8_normalize_boolean_amended (.s "maybe")).2.2.1 "maybe" rfl).2.2
      (by decide) (by decide)

/-- C9: when `allow` denies a key, it records no new timestamp for it —
the key's stored deque becomes exactly the purged old deque (a sublist
of the old one, so no longer), and every other key's entry is
untouched. -/
theorem C9_denial_records_nothing (rl : RateLimiter) (ip : String) (now : ℚ)
    (q : List ℚ) (hq : rl.requests ip = some q)
    (hfalse : (allow rl ip now).1 = false) :
    (allow rl ip now).2.requests ip = some (rlPurge (now - rl.window) q) ∧
    (rlPurge (now - rl.window) q).Sublist q ∧
    (rlPurge (now - rl.window) q).length ≤ q.length ∧
    (∀ k, k ≠ ip → (allow rl ip now).2.requests k = rl.requests k) := by
  have hsub : (rlPurge (now - rl.window) q).Sublist q := List.dropWhile_sublist _
  by_cases hp : rlPurge (now - rl.window) q = []
  · exfalso
    rw [allow, hq] at hfalse
    simp only [hp, if_pos rfl] at hfalse
    simp at hfalse
  · by_cases hlen : rl.max_requests ≤ (rlPurge (now - rl.window) q).length
    · refine ⟨?_, hsub, hsub.length_le, ?_⟩
      · rw [allow, hq]
        simp only [if_neg hp, if_pos hlen]
        simp [rlUpdate]
      · intro k hk
        rw [allow, hq]
        simp only [if_neg hp, if_pos hlen]
        simp [rlUpdate, hk]
    · exfalso
      rw [allow, hq] at hfalse
      simp only [if_neg hp, if_neg hlen] at hfalse
      simp at hfalse

/-- Witness for C9: a limiter with max 1 and a recorded timestamp denies
the next call in-window and records nothing new for the key. -/
theorem C9_denial_records_nothing_witness :
    (allow ⟨1, 10, fun k => if k = "k" then some [0] else none⟩ "k" 1).2.requests
        "k" = some (rlPurge (1 - 10) [0]) ∧
    (rlPurge (1 - 10) [0]).Sublist [0] ∧
    (rlPurge (1 - 10) [0]).length ≤ [(0 : ℚ)].length ∧
    (allow ⟨1, 10, fun k => if k = "k" then some [0] else none⟩ "k" 1).2.requests
        "other" = (fun k : String => if k = "k" then some [(0 : ℚ)] else none)
          "other" := by
  have h := C9_denial_records_nothing
    ⟨1, 10, fun k => if k = "k" then some [0] else none⟩ "k" 1 [0] (by simp) (by
      have hlt : ¬((0 : ℚ) < 1 - 10) := by norm_num
      simp [allow, rlPurge, rlUpdate, List.dropWhile_cons, hlt])
  exact ⟨h.1, h.2.1, h.2.2.1, h.2.2.2 "other" (by decide)⟩

/-- C10: for a successful `set_setpoint` dispatch, the result is the
value of a fresh `get_setpoint` read issued after the write completes —
the device's reported setpoint, not the requested value — so the
dispatcher performs exactly one device read beyond the write (and its
driver-internal verification read-backs). -/
theorem C10_set_setpoint_fresh_read {σ : Type} (B : Backend σ) (s : σ)
    (msg : Message) (jv : JVal) (q : ℚ) (s1 s2 : σ) (r : ℚ)
    (hv : msg.value = some jv) (hq : pyFloat? jv = .ok q)
    (hset : B.set_setpoint q s = .ok s1)
    (hget : B.get_setpoint s1 = .ok (r, s2)) :
    dispatch_command B s "set_setpoint" msg =
      (.ok (.n r), s2, [.set_setpoint q, .get_setpoint]) := by
  simp [dispatch_command, hv, hq, hset, hget]

/-- Witness for C10: on the simulated backend, requesting setpoint 25
dispatches the write followed by one fresh read whose value is the
result. -/
theorem C10_set_setpoint_fresh_read_witness :
    dispatch_command fakeBackend {} "set_setpoint"
        { value := some (.n 25) } =
      (.ok (.n 25), { setpoint := 25 }, [.set_setpoint 25, .get_setpoint]) :=
  C10_set_setpoint_fresh_read fakeBackend {} { value := some (.n 25) }
    (.n 25) 25 { setpoint := 25 } { setpoint := 25 } 25 rfl rfl
    (by norm_num [fakeBackend, SETPOINT_MIN, SETPOINT_MAX]) rfl

/-- `allow` on a key with no stored deque: record `now` and allow. -/
theorem allow_none (rl : RateLimiter) (ip : String) (now : ℚ)
    (hq : rl.requests ip = none) :
    allow rl ip now =
      (true, { rl with requests := rlUpdate rl.requests ip (some [now]) }) := by
  simp [allow, hq]

/-- `allow` on a key with stored deque `q`: purge, then evict / deny /
record according to what is left. -/
theorem allow_some (rl : RateLimiter) (ip : String) (now : ℚ) (q : List ℚ)
    (hq : rl.requests ip = some q) :
    allow rl ip now =
      (if rlPurge (now - rl.window) q = [] then
        (true, { rl with requests := rlUpdate rl.requests ip (some [now]) })
      else if rl.max_requests ≤ (rlPurge (now - rl.window) q).length then
        (false, { rl with
          requests := rlUpdate rl.requests ip (some (rlPurge (now - rl.window) q)) })
      else
        (true, { rl with
          requests := rlUpdate rl.requests ip
            (some (rlPurge (now - rl.window) q ++ [now])) })) := by
  by_cases hp : rlPurge (now - rl.window) q = []
  · simp [allow, hq, hp]
  · by_cases hlen : rl.max_requests ≤ (rlPurge (now - rl.window) q).length
    · simp [allow, hq, hp, hlen]
    · simp [allow, hq, hp, hlen]

/-- `allow` only ever touches the requests map. -/
theorem allow_preserves_fields (rl : RateLimiter) (ip : String) (now : ℚ) :
    (allow rl ip now).2.max_requests = rl.max_requests ∧
    (allow rl ip now).2.window = rl.window := by
  cases hq : rl.requests ip with
  | none => rw [allow_none rl ip now hq]; exact ⟨rfl, rfl⟩
  | some q =>
    rw [allow_some rl ip now q hq]
    split
    · exact ⟨rfl, rfl⟩
    · split <;> exact ⟨rfl, rfl⟩

/-- `allowRun` keeps the configured maximum and window. -/
theorem allowRun_preserves_fields (rl : RateLimiter) (ip : String)
    (t : ℕ → ℚ) (k : ℕ) :
    (allowRun rl ip t k).max_requests = rl.max_requests ∧
    (allowRun rl ip t k).window = rl.window := by
  induction k with
  | zero => exact ⟨rfl, rfl⟩
  | succ k ih =>
    have h := allow_preserves_fields (allowRun rl ip t k) ip (t k)
    exact ⟨h.1.trans ih.1, h.2.trans ih.2⟩

/-- Purging drops nothing when the oldest entry is still inside the
window. -/
theorem rlPurge_keep (cutoff x : ℚ) (l : List ℚ) (h : ¬x < cutoff) :
    rlPurge cutoff (x :: l) = x :: l := by
  simp [rlPurge, List.dropWhile_cons, h]

/-- After `k ≤ N` in-window calls from an empty limiter, the key's
deque holds exactly the `k` call timestamps. -/
theorem allowRun_requests (N : ℕ) (w : ℚ) (ip : String) (t : ℕ → ℚ)
    (hmono : ∀ i j, i ≤ j → t i ≤ t j) (hwin : t N ≤ t 0 + w) :
    ∀ k, k ≤ N → (allowRun (emptyLimiter N w) ip t k).requests ip =
      if k = 0 then none else some ((List.range k).map t) := by
  intro k
  induction k with
  | zero => intro _; rfl
  | succ k ih =>
    intro hk1
    have hk : k ≤ N := by omega
    have hfields := allowRun_preserves_fields (emptyLimiter N w) ip t k
    have hmax : (allowRun (emptyLimiter N w) ip t k).max_requests = N := hfields.1
    have hwindow : (allowRun (emptyLimiter N w) ip t k).window = w := hfields.2
    have hreq := ih hk
    show (allow (allowRun (emptyLimiter N w) ip t k) ip (t k)).2.requests ip = _
    rcases Nat.eq_zero_or_pos k with rfl | hkpos
    · simp only [if_pos rfl] at hreq
      rw [allow_none _ _ _ hreq]
      simp [rlUpdate, List.range_succ]
    · have hkne : k ≠ 0 := by omega
      simp only [if_neg hkne] at hreq
      obtain ⟨j, rfl⟩ : ∃ j, k = j + 1 := ⟨k - 1, by omega⟩
      have htail : (List.range (j + 1)).map t =
          t 0 :: (List.range j).map (t ∘ Nat.succ) := by
        rw [List.range_succ_eq_map]; simp
      have hcut : ¬ t 0 <
          t (j + 1) - (allowRun (emptyLimiter N w) ip t (j + 1)).window := by
        rw [hwindow]
        have h1 : t (j + 1) ≤ t N := hmono (j + 1) N hk
        linarith
      have hpurge : rlPurge
          (t (j + 1) - (allowRun (emptyLimiter N w) ip t (j + 1)).window)
          ((List.range (j + 1)).map t) = (List.range (j + 1)).map t := by
        rw [htail, rlPurge_keep _ _ _ hcut, ← htail]
      rw [allow_some _ _ _ _ hreq, hpurge]
      have hne : ¬ ((List.range (j + 1)).map t = []) := by simp
      have hlt : ¬ (allowRun (emptyLimiter N w) ip t (j + 1)).max_requests ≤
          ((List.range (j + 1)).map t).length := by
        rw [hmax]; simp; omega
      simp only [if_neg hne, if_neg hlt]
      simp [rlUpdate, List.range_succ]

/-- C4: a `RateLimiter` with maximum `N` per window, starting empty,
allows `N` consecutive calls for a key made within one window, denies
the `(N+1)`-th call made within that same window, and allows again once
the window has elapsed past every recorded timestamp (call `k` happens
at time `t k`). -/
theorem C4_rate_limiter_spec (N : ℕ) (w : ℚ) (ip : String) (t : ℕ → ℚ)
    (hN : 0 < N) (hmono : ∀ i j, i ≤ j → t i ≤ t j)
    (hwin : t N ≤ t 0 + w) :
    (∀ k < N, allowResult (emptyLimiter N w) ip t k = true) ∧
    allowResult (emptyLimiter N w) ip t N = false ∧
    (∀ t', t (N - 1) + w < t' →
      (allow (allowRun (emptyLimiter N w) ip t (N + 1)) ip t').1 = true) := by
  have hmaxk : ∀ k, (allowRun (emptyLimiter N w) ip t k).max_requests = N :=
    fun k => (allowRun_preserves_fields (emptyLimiter N w) ip t k).1
  have hwink : ∀ k, (allowRun (emptyLimiter N w) ip t k).window = w :=
    fun k => (allowRun_preserves_fields (emptyLimiter N w) ip t k).2
  have hreq := allowRun_requests N w ip t hmono hwin
  have hlenk : ∀ k, ((List.range k).map t).length = k := by simp
  have purge_keep : ∀ k, 0 < k → k ≤ N →
      rlPurge (t k - (allowRun (emptyLimiter N w) ip t k).window)
        ((List.range k).map t) = (List.range k).map t := by
    intro k hk0 hkN
    obtain ⟨j, rfl⟩ : ∃ j, k = j + 1 := ⟨k - 1, by omega⟩
    have htail : (List.range (j + 1)).map t =
        t 0 :: (List.range j).map (t ∘ Nat.succ) := by
      rw [List.range_succ_eq_map]; simp
    have hcut : ¬ t 0 <
        t (j + 1) - (allowRun (emptyLimiter N w) ip t (j + 1)).window := by
      rw [hwink]
      have h1 : t (j + 1) ≤ t N := hmono (j + 1) N hkN
      linarith
    rw [htail, rlPurge_keep _ _ _ hcut, ← htail]
  have hnonnil : ∀ k, 0 < k → ¬ ((List.range k).map t = []) := by
    intro k hk
    simp
    omega
  refine ⟨?_, ?_, ?_⟩
  · intro k hkN
    rcases Nat.eq_zero_or_pos k with rfl | hkpos
    · unfold allowResult
      rw [allow_none _ _ _ (hreq 0 (by omega))]
    · unfold allowResult
      have h := hreq k (by omega)
      rw [if_neg (by omega : ¬ k = 0)] at h
      have hlt : ¬ (allowRun (emptyLimiter N w) ip t k).max_requests ≤
          ((List.range k).map t).length := by
        rw [hmaxk, hlenk]; omega
      rw [allow_some _ _ _ _ h, purge_keep k hkpos (by omega),
        if_neg (hnonnil k hkpos), if_neg hlt]
  · unfold allowResult
    have h := hreq N (le_refl N)
    rw [if_neg (by omega : ¬ N = 0)] at h
    have hge : (allowRun (emptyLimiter N w) ip t N).max_requests ≤
        ((List.range N).map t).length := by
      rw [hmaxk, hlenk]
    rw [allow_some _ _ _ _ h, purge_keep N hN (le_refl N),
      if_neg (hnonnil N hN), if_pos hge]
  · intro t' ht'
    -- the state after the denied (N+1)-th call still holds the first N
    -- timestamps
    have h := hreq N (le_refl N)
    rw [if_neg (by omega : ¬ N = 0)] at h
    have hge : (allowRun (emptyLimiter N w) ip t N).max_requests ≤
        ((List.range N).map t).length := by
      rw [hmaxk, hlenk]
    have hreq1 : (allowRun (emptyLimiter N w) ip t (N + 1)).requests ip =
        some ((List.range N).map t) := by
      show (allow (allowRun (emptyLimiter N w) ip t N) ip (t N)).2.requests ip = _
      rw [allow_some _ _ _ _ h, purge_keep N hN (le_refl N),
        if_neg (hnonnil N hN), if_pos hge]
      simp [rlUpdate]
    rw [allow_some _ _ _ _ hreq1]
    have hall : rlPurge (t' - (allowRun (emptyLimiter N w) ip t (N + 1)).window)
        ((List.range N).map t) = [] := by
      rw [hwink]
      apply List.dropWhile_eq_nil_iff.2
      intro x hx
      simp only [List.mem_map, List.mem_range] at hx
      obtain ⟨j, hj, rfl⟩ := hx
      have h1 : t j ≤ t (N - 1) := hmono j (N - 1) (by omega)
      simp only [decide_eq_true_eq]
      linarith
    rw [if_pos hall]

/-- Witness for C4 at `N = 2`, calls at times `0, 1, 2` and a late call
at time `70` with a 60-second window. -/
theorem C4_rate_limiter_spec_witness :
    allowResult (emptyLimiter 2 60) "c" (fun i => (i : ℚ)) 0 = true ∧
    allowResult (emptyLimiter 2 60) "c" (fun i => (i : ℚ)) 1 = true ∧
    allowResult (emptyLimiter 2 60) "c" (fun i => (i : ℚ)) 2 = false ∧
    (allow (allowRun (emptyLimiter 2 60) "c" (fun i => (i : ℚ)) 3) "c" 100).1 =
      true := by
  have h := C4_rate_limiter_spec 2 60 "c" (fun i => (i : ℚ)) (by norm_num)
    (fun i j hij => by exact_mod_cast Nat.cast_le.2 hij) (by norm_num)
  exact ⟨h.1 0 (by norm_num), h.1 1 (by norm_num), h.2.1,
    h.2.2 100 (by norm_num)⟩

/-- In a schedule with strictly increasing minutes, elapsed minutes are
monotone in the index. -/
theorem pairwise_mono_idx (l : List ScheduleStep)
    (hp : l.Pairwise (fun a b => a.elapsed_minutes < b.elapsed_minutes))
    (i j : ℕ) (hi : i < l.length) (hj : j < l.length) (hij : i ≤ j) :
    l[i].elapsed_minutes ≤ l[j].elapsed_minutes := by
  rcases Nat.eq_or_lt_of_le hij with rfl | hlt
  · exact le_refl _
  · exact (List.pairwise_iff_getElem.1 hp i j hi hj hlt).le

/-- A point interpolated with a coefficient in `[0, 1]` lies between the
endpoints. -/
theorem interp_between (t0 t1 f : ℚ) (h0 : 0 ≤ f) (h1 : f ≤ 1) :
    min t0 t1 ≤ t0 + f * (t1 - t0) ∧ t0 + f * (t1 - t0) ≤ max t0 t1 := by
  rcases le_total t0 t1 with h | h
  · rw [min_eq_left h, max_eq_right h]
    constructor <;> nlinarith
  · rw [min_eq_right h, max_eq_left h]
    constructor <;> nlinarith

/-- The bracketing scan returns the linear interpolation of the unique
bracketing pair when `t` lies strictly between two consecutive steps of
a strictly increasing schedule. -/
theorem findPair_interp (t : ℚ) :
    ∀ (steps : List ScheduleStep) (i : ℕ),
      steps.Pairwise (fun a b => a.elapsed_minutes < b.elapsed_minutes) →
      ∀ (hi : i + 1 < steps.length),
      steps[i].elapsed_minutes < t → t < steps[i + 1].elapsed_minutes →
      findPair t steps = steps[i].temperature +
        (t - steps[i].elapsed_minutes) /
          (steps[i + 1].elapsed_minutes - steps[i].elapsed_minutes) *
          (steps[i + 1].temperature - steps[i].temperature) := by
  intro steps
  induction steps with
  | nil => intro i _ hi; simp at hi
  | cons a rest ih =>
    intro i hp hi h1 h2
    cases rest with
    | nil => simp at hi
    | cons b rest' =>
      cases i with
      | zero =>
        simp only [List.getElem_cons_zero, List.getElem_cons_succ] at h1 h2 ⊢
        have hab : a.elapsed_minutes < b.elapsed_minutes :=
          (List.pairwise_cons.1 hp).1 b (List.mem_cons_self b rest')
        have hcond : a.elapsed_minutes ≤ t ∧ t ≤ b.elapsed_minutes :=
          ⟨h1.le, h2.le⟩
        have hspan : ¬(b.elapsed_minutes - a.elapsed_minutes = 0) :=
          sub_ne_zero.2 (ne_of_gt hab)
        simp only [findPair, if_pos hcond]
        rw [if_neg hspan]
      | succ j =>
        have hi' : j + 1 < (b :: rest').length := by
          simp at hi ⊢; omega
        have h1' : (b :: rest')[j].elapsed_minutes < t := by
          simpa using h1
        have h2' : t < (b :: rest')[j + 1].elapsed_minutes := by
          simpa using h2
        have hptail : (b :: rest').Pairwise
            (fun a b => a.elapsed_minutes < b.elapsed_minutes) :=
          (List.pairwise_cons.1 hp).2
        have hble : b.elapsed_minutes ≤ (b :: rest')[j].elapsed_minutes := by
          have := pairwise_mono_idx (b :: rest') hptail 0 j (by simp)
            (by omega) (Nat.zero_le j)
          simpa using this
        have hguard : ¬(a.elapsed_minutes ≤ t ∧ t ≤ b.elapsed_minutes) := by
          rintro ⟨-, hle⟩
          have : t ≤ (b :: rest')[j].elapsed_minutes := hle.trans hble
          linarith
        simp only [findPair, if_neg hguard, List.getElem_cons_succ]
        exact ih j hptail hi' h1' h2'

/-- C2: for a nonempty schedule with strictly increasing minutes,
`setpoint_at` holds the first temperature at or before the first step,
holds the last temperature at or after the last step, and strictly
between two consecutive steps returns the linear interpolation, which
lies between the two temperatures inclusive; in particular the schedule
`(0, 20), (10, 30)` gives `setpoint_at 5 = 25`. -/
theorem C2_setpoint_at_spec (steps : List ScheduleStep) (h : steps ≠ [])
    (hs : steps.Pairwise (fun a b => a.elapsed_minutes < b.elapsed_minutes))
    (t : ℚ) :
    (t ≤ (steps.head h).elapsed_minutes →
      setpoint_at steps t = some (steps.head h).temperature) ∧
    ((steps.getLast h).elapsed_minutes ≤ t →
      setpoint_at steps t = some (steps.getLast h).temperature) ∧
    (∀ (i : ℕ) (hi : i + 1 < steps.length),
      steps[i].elapsed_minutes < t → t < steps[i + 1].elapsed_minutes →
      setpoint_at steps t = some (steps[i].temperature +
        (t - steps[i].elapsed_minutes) /
          (steps[i + 1].elapsed_minutes - steps[i].elapsed_minutes) *
          (steps[i + 1].temperature - steps[i].temperature)) ∧
      min steps[i].temperature steps[i + 1].temperature ≤
        steps[i].temperature + (t - steps[i].elapsed_minutes) /
          (steps[i + 1].elapsed_minutes - steps[i].elapsed_minutes) *
          (steps[i + 1].temperature - steps[i].temperature) ∧
      steps[i].temperature + (t - steps[i].elapsed_minutes) /
          (steps[i + 1].elapsed_minutes - steps[i].elapsed_minutes) *
          (steps[i + 1].temperature - steps[i].temperature) ≤
        max steps[i].temperature steps[i + 1].temperature) ∧
    setpoint_at [⟨0, 20⟩, ⟨10, 30⟩] 5 = some 25 := by
  obtain ⟨s0, rest, rfl⟩ : ∃ s0 rest, steps = s0 :: rest := by
    cases steps with
    | nil => exact absurd rfl h
    | cons s0 rest => exact ⟨s0, rest, rfl⟩
  refine ⟨?_, ?_, ?_, ?_⟩
  · intro ht
    simp only [List.head_cons] at ht ⊢
    simp only [setpoint_at, if_pos ht]
  · intro ht
    cases rest with
    | nil =>
      simp only [List.getLast_singleton] at ht ⊢
      by_cases h0 : t ≤ s0.elapsed_minutes
      · simp only [setpoint_at, if_pos h0]
      · simp only [setpoint_at, if_neg h0, List.getLast_singleton, if_pos ht]
    | cons b rest' =>
      have hlast_mem : (s0 :: b :: rest').getLast (by simp) ∈ b :: rest' := by
        rw [List.getLast_cons (by simp : b :: rest' ≠ [])]
        exact List.getLast_mem _
      have h0lt : s0.elapsed_minutes <
          ((s0 :: b :: rest').getLast (by simp)).elapsed_minutes :=
        (List.pairwise_cons.1 hs).1 _ hlast_mem
      have hnot : ¬ t ≤ s0.elapsed_minutes := by
        simp only [not_le]
        calc s0.elapsed_minutes < _ := h0lt
          _ ≤ t := ht
      simp only [setpoint_at, if_neg hnot, if_pos ht]
  · intro i hi h1 h2
    have hlen : (s0 :: rest).length = rest.length + 1 := by simp
    have hfirst : ¬ t ≤ s0.elapsed_minutes := by
      have h0i : s0.elapsed_minutes ≤ (s0 :: rest)[i].elapsed_minutes := by
        have := pairwise_mono_idx (s0 :: rest) hs 0 i (by simp) (by omega)
          (Nat.zero_le i)
        simpa using this
      simp only [not_le]
      exact lt_of_le_of_lt h0i h1
    have hlast_idx : (s0 :: rest).getLast (by simp) =
        (s0 :: rest)[(s0 :: rest).length - 1] :=
      List.getLast_eq_getElem _ (by simp)
    have hlast : ¬ ((s0 :: rest).getLast (by simp)).elapsed_minutes ≤ t := by
      rw [hlast_idx]
      have hle : (s0 :: rest)[i + 1].elapsed_minutes ≤
          (s0 :: rest)[(s0 :: rest).length - 1].elapsed_minutes :=
        pairwise_mono_idx (s0 :: rest) hs (i + 1) ((s0 :: rest).length - 1)
          hi (by omega) (by omega)
      simp only [not_le]
      exact lt_of_lt_of_le h2 hle
    have hmm : (s0 :: rest)[i].elapsed_minutes <
        (s0 :: rest)[i + 1].elapsed_minutes :=
      List.pairwise_iff_getElem.1 hs i (i + 1) (by omega) hi (by omega)
    have hval := findPair_interp t (s0 :: rest) i hs hi h1 h2
    refine ⟨?_, ?_⟩
    · simp only [setpoint_at, if_neg hfirst, if_neg hlast, hval]
    · have hf0 : 0 ≤ (t - (s0 :: rest)[i].elapsed_minutes) /
          ((s0 :: rest)[i + 1].elapsed_minutes - (s0 :: rest)[i].elapsed_minutes) :=
        div_nonneg (by linarith) (by linarith)
      have hf1 : (t - (s0 :: rest)[i].elapsed_minutes) /
          ((s0 :: rest)[i + 1].elapsed_minutes - (s0 :: rest)[i].elapsed_minutes) ≤ 1 := by
        rw [div_le_one (by linarith)]
        linarith
      exact interp_between _ _ _ hf0 hf1
  · norm_num [setpoint_at, findPair]

/-- Witness for C2 on the schedule `(0, 20), (10, 30)`: hold before,
hold after, and the interpolated midpoint value 25 at `t = 5`. -/
theorem C2_setpoint_at_spec_witness :
    setpoint_at [⟨0, 20⟩, ⟨10, 30⟩] (-3) = some 20 ∧
    setpoint_at [⟨0, 20⟩, ⟨10, 30⟩] 42 = some 30 ∧
    setpoint_at [⟨0, 20⟩, ⟨10, 30⟩] 5 = some 25 := by
  have hp : ([⟨0, 20⟩, ⟨10, 30⟩] : List ScheduleStep).Pairwise
      (fun a b => a.elapsed_minutes < b.elapsed_minutes) := by
    norm_num [List.pairwise_cons]
  refine ⟨?_, ?_, ?_⟩
  · exact (C2_setpoint_at_spec [⟨0, 20⟩, ⟨10, 30⟩] (by simp) hp (-3)).1
      (by norm_num)
  · exact (C2_setpoint_at_spec [⟨0, 20⟩, ⟨10, 30⟩] (by simp) hp 42).2.1
      (by norm_num [List.getLast])
  · exact (C2_setpoint_at_spec [⟨0, 20⟩, ⟨10, 30⟩] (by simp) hp 5).2.2.2

/-- The read-only flag is only consulted by the gate: any command
outside `_WRITE_COMMANDS` and `_SCHEDULE_WRITE` behaves identically
whatever the flag. -/
theorem read_only_irrelevant {σ : Type} (B : Backend σ) (srv : Server σ)
    (msg : Message) (now : ℚ) (cmd : String) (hc : msg.command = some cmd)
    (hW : cmd ∉ _WRITE_COMMANDS) (hS : cmd ∉ _SCHEDULE_WRITE) :
    process_command B srv msg now =
      process_command B { srv with read_only := false } msg now := by
  have hg1 : ¬(srv.read_only = true ∧
      (cmd ∈ _WRITE_COMMANDS ∨ cmd ∈ _SCHEDULE_WRITE)) :=
    fun hcon => hcon.2.elim hW hS
  have hg2 : ¬(({ srv with read_only := false } : Server σ).read_only = true ∧
      (cmd ∈ _WRITE_COMMANDS ∨ cmd ∈ _SCHEDULE_WRITE)) :=
    fun hcon => hcon.2.elim hW hS
  simp only [process_command, hc]
  rw [if_neg hg1, if_neg hg2]
  rfl

/-- C3: in read-only mode every mutating command (`set_setpoint`,
`start`, `stop`, `set_running`) receives the read-only error response
with no device operation and no state change, while `ping` and every
read command (`identify`, `status`, `get_setpoint`, `temperature`,
`is_running`, `status_all`) are served exactly as they would be with
the flag off. -/
theorem C3_read_only_gate {σ : Type} (B : Backend σ) (srv : Server σ)
    (msg : Message) (now : ℚ) (hro : srv.read_only = true)
    (hauth : authRejected srv msg = false) :
    (∀ cmd, msg.command = some cmd → cmd ∈ _WRITE_COMMANDS →
      process_command B srv msg now =
        (.ok readOnlyResp, srv.chillers, srv.runners, [])) ∧
    (msg.command = some "ping" →
      process_command B srv msg now =
        (.ok (okResp (.s "pong")), srv.chillers, srv.runners, [])) ∧
    (∀ cmd, msg.command = some cmd →
      cmd ∈ ["identify", "status", "get_setpoint", "temperature",
             "is_running", "status_all"] →
      process_command B srv msg now =
        process_command B { srv with read_only := false } msg now) := by
  refine ⟨?_, ?_, ?_⟩
  · intro cmd hc hmem
    fin_cases hmem <;>
      simp [process_command, hauth, hc, hro, _WRITE_COMMANDS, _SCHEDULE_WRITE]
  · intro hc
    simp [process_command, hauth, hc, hro, _WRITE_COMMANDS, _SCHEDULE_WRITE]
  · intro cmd hc hmem
    apply read_only_irrelevant B srv msg now cmd hc
    · fin_cases hmem <;> decide
    · fin_cases hmem <;> decide

/-- A read-only gateway over the simulated backend, with the default
chiller registered and no auth token. -/
def roSrv : Server FakeChillerState where
  auth_token := none
  read_only := true
  serial_connected := true
  audit_enabled := false
  chillers := fun k => if k = "default" then some {} else none
  runners := fun _ => none

/-- Witness for C3 on the read-only simulated gateway: `set_setpoint`
is rejected with no device call, `ping` answers pong, and `status` is
served exactly as with the flag off. -/
theorem C3_read_only_gate_witness :
    process_command fakeBackend roSrv
        { command := some "set_setpoint", value := some (.n 30) } 0 =
      (.ok readOnlyResp, roSrv.chillers, roSrv.runners, []) ∧
    process_command fakeBackend roSrv { command := some "ping" } 0 =
      (.ok (okResp (.s "pong")), roSrv.chillers, roSrv.runners, []) ∧
    process_command fakeBackend roSrv { command := some "status" } 0 =
      process_command fakeBackend { roSrv with read_only := false }
        { command := some "status" } 0 := by
  refine ⟨?_, ?_, ?_⟩
  · exact (C3_read_only_gate fakeBackend roSrv _ 0 rfl rfl).1 "set_setpoint"
      rfl (by decide)
  · exact (C3_read_only_gate fakeBackend roSrv _ 0 rfl rfl).2.1 rfl
  · exact (C3_read_only_gate fakeBackend roSrv _ 0 rfl rfl).2.2 "status"
      rfl (by decide)

/-- Every `.ok` response `process_locked` produces is an `okResp`
envelope. -/
theorem process_locked_ok_shape {σ : Type} (B : Backend σ) (srv : Server σ)
    (msg : Message) (now : ℚ) (cmd cid : String) (cs : σ) (resp : Response)
    (h : (process_locked B srv msg now cmd cid cs).1 = .ok resp) :
    ∃ r, resp = okResp r := by
  unfold process_locked at h
  dsimp only at h
  repeat' split at h
  all_goals dsimp only at h
  all_goals
    first
    | exact Except.noConfusion h
    | (injection h with h; exact ⟨_, h.symm⟩)

/-- Every response `process_command` returns (rather than raises) is
the read-only rejection, the serial-lost notice, or an `okResp`
envelope. -/
theorem process_ok_shape {σ : Type} (B : Backend σ) (srv : Server σ)
    (msg : Message) (now : ℚ) (resp : Response)
    (h : (process_command B srv msg now).1 = .ok resp) :
    resp = readOnlyResp ∨ resp = serialLostResp ∨ ∃ r, resp = okResp r := by
  unfold process_command at h
  dsimp only at h
  repeat' split at h
  all_goals try (dsimp only at h)
  all_goals
    first
    | exact Except.noConfusion h
    | (injection h with h; exact .inl h.symm)
    | (injection h with h; exact .inr (.inl h.symm))
    | (injection h with h; exact .inr (.inr ⟨_, h.symm⟩))
    | exact .inr (.inr (process_locked_ok_shape B srv msg now _ _ _ resp h))

/-- Of the envelopes the gateway writes, exactly the `"status": "ok"`
ones carry `protocol_version`. -/
theorem envelope_version_iff (resp : Response)
    (h : resp = readOnlyResp ∨ resp = serialLostResp ∨
      (∃ r, resp = okResp r) ∨ resp = oversizedResp ∨ resp = rateLimitResp ∨
      (∃ e, resp = errorResp e)) :
    (List.lookup "status" resp = some (.s "ok") ↔
      List.lookup "protocol_version" resp = some (.n PROTOCOL_VERSION)) := by
  rcases h with rfl | rfl | ⟨r, rfl⟩ | rfl | rfl | ⟨e, rfl⟩ <;>
    simp [readOnlyResp, serialLostResp, okResp, oversizedResp, rateLimitResp,
      errorResp, List.lookup]

/-- C6 counterexample: the read-only rejection is a response envelope
the gateway writes back, and it carries no `protocol_version` field. -/
theorem C6_counterexample :
    (handle_one fakeBackend roSrv
        (.line (.ok { command := some "set_setpoint", value := some (.n 30) }))
        true 0).1 = some readOnlyResp ∧
    List.lookup "protocol_version" readOnlyResp = none := by
  constructor
  · rfl
  · rfl

/-- C6 as amended: a response envelope written by the gateway carries
an integer `protocol_version` field exactly when it is a
`"status": "ok"` envelope; every error envelope (read-only rejection,
rate-limit denial, oversized message, serial-disconnected notice,
sanitized exception) omits it. -/
theorem C6_protocol_version_amended {σ : Type} (B : Backend σ)
    (srv : Server σ) (raw : RawInput) (allowed : Bool) (now : ℚ)
    (resp : Response)
    (h : (handle_one B srv raw allowed now).1 = some resp) :
    (List.lookup "status" resp = some (.s "ok") ↔
      List.lookup "protocol_version" resp = some (.n PROTOCOL_VERSION)) := by
  apply envelope_version_iff
  rcases raw with _ | _ | parsed
  · dsimp only [handle_one] at h
    injection h with h
    exact .inr (.inr (.inr (.inl h.symm)))
  · exact Option.noConfusion h
  · dsimp only [handle_one] at h
    by_cases ha : allowed
    · rw [if_neg (by simpa using ha)] at h
      rcases parsed with emsg | msg
      · dsimp only at h
        injection h with h
        exact .inr (.inr (.inr (.inr (.inr ⟨_, h.symm⟩))))
      · dsimp only at h
        rcases hp : process_command B srv msg now with ⟨res, ch, ru, calls⟩
        rw [hp] at h
        rcases res with e | r
        · dsimp only at h
          injection h with h
          exact .inr (.inr (.inr (.inr (.inr ⟨_, h.symm⟩))))
        · dsimp only at h
          injection h with h
          have hr : (process_command B srv msg now).1 = .ok r := by rw [hp]
          rcases process_ok_shape B srv msg now r hr with h1 | h1 | ⟨x, h1⟩
          · exact .inl (h.symm.trans h1)
          · exact .inr (.inl (h.symm.trans h1))
          · exact .inr (.inr (.inl ⟨x, h.symm.trans h1⟩))
    · rw [if_pos (by simpa using ha)] at h
      injection h with h
      exact .inr (.inr (.inr (.inr (.inl h.symm))))

/-- Witness for C6's amended claim at a served `ping`: the ok envelope
carries the protocol version. -/
theorem C6_protocol_version_amended_witness :
    List.lookup "status" (okResp (.s "pong")) = some (.s "ok") ↔
    List.lookup "protocol_version" (okResp (.s "pong")) =
      some (.n PROTOCOL_VERSION) :=
  C6_protocol_version_amended fakeBackend roSrv
    (.line (.ok { command := some "ping" })) true 0 (okResp (.s "pong"))
    (by rfl)

/-- `digitChar` of a digit is a digit character. -/
theorem digitChar_isDigit (n : ℕ) (h : n < 10) : (digitChar n).isDigit = true := by
  interval_cases n <;> decide

/-- Code of a digit character. -/
theorem digitChar_toNat (n : ℕ) (h : n < 10) : (digitChar n).toNat - 48 = n := by
  interval_cases n <;> rfl

/-- A digit character is not a sign. -/
theorem isDigit_ne_minus (c : Char) (h : c.isDigit = true) : ¬(c = '-') :=
  fun hc => absurd (hc ▸ h) (by decide)

/-- A digit character is not a plus sign. -/
theorem isDigit_ne_plus (c : Char) (h : c.isDigit = true) : ¬(c = '+') :=
  fun hc => absurd (hc ▸ h) (by decide)

/-- A digit character is not a dot. -/
theorem isDigit_ne_dot (c : Char) (h : c.isDigit = true) : ¬(c = '.') :=
  fun hc => absurd (hc ▸ h) (by decide)

/-- A digit character is not whitespace. -/
theorem isDigit_not_ws (c : Char) (h : c.isDigit = true) :
    c.isWhitespace = false := by
  rcases hw : c.isWhitespace with _ | _
  · rfl
  · exfalso
    have hcases : c = ' ' ∨ c = '\t' ∨ c = '\x0d' ∨ c = '\n' := by
      simpa [Char.isWhitespace, or_assoc] using hw
    rcases hcases with rfl | rfl | rfl | rfl <;> exact absurd h (by decide)

/-- `natDigits` produces only digit characters. -/
theorem natDigits_all_digit (n : ℕ) : (natDigits n).all Char.isDigit = true := by
  induction n using Nat.strong_induction_on with
  | _ n ih =>
    rw [natDigits]
    split
    · simp [digitChar_isDigit n (by omega)]
    · rename_i h
      simp only [List.all_append, Bool.and_eq_true]
      exact ⟨ih (n / 10) (Nat.div_lt_self (by omega) (by omega)),
        by simp [digitChar_isDigit (n % 10) (Nat.mod_lt n (by omega))]⟩

/-- `natDigits` is never empty. -/
theorem natDigits_ne_nil (n : ℕ) : natDigits n ≠ [] := by
  rw [natDigits]
  split
  · simp
  · simp

/-- `digitsVal` over a snoc. -/
theorem digitsVal_append (l : List Char) (c : Char) :
    digitsVal (l ++ [c]) = 10 * digitsVal l + (c.toNat - 48) := by
  simp [digitsVal, List.foldl_append]

/-- `digitsVal` of a single digit. -/
theorem digitsVal_digitChar (n : ℕ) (h : n < 10) :
    digitsVal [digitChar n] = n := by
  interval_cases n <;> rfl

/-- Parsing the digits of `n` gives back `n`. -/
theorem digitsVal_natDigits (n : ℕ) : digitsVal (natDigits n) = n := by
  induction n using Nat.strong_induction_on with
  | _ n ih =>
    rw [natDigits]
    split
    · rename_i h
      exact digitsVal_digitChar n h
    · rename_i h
      rw [digitsVal_append, ih (n / 10) (Nat.div_lt_self (by omega) (by omega)),
        digitChar_toNat (n % 10) (Nat.mod_lt n (by omega))]
      omega

/-- `natDigits` of a single digit. -/
theorem natDigits_lt_10 (n : ℕ) (h : n < 10) : natDigits n = [digitChar n] := by
  rw [natDigits]
  simp [h]

/-- `pad2` produces only digit characters. -/
theorem pad2_all_digit (n : ℕ) : (pad2 n).all Char.isDigit = true := by
  unfold pad2
  split
  · rename_i h
    rw [natDigits_lt_10 n h]
    simp [digitChar_isDigit n h]
  · exact natDigits_all_digit n

/-- `pad2` of a value below 100 is two characters long. -/
theorem pad2_length (n : ℕ) (h : n < 100) : (pad2 n).length = 2 := by
  unfold pad2
  split
  · rename_i h10
    rw [natDigits_lt_10 n h10]
    rfl
  · rename_i h10
    rw [natDigits, dif_neg h10, natDigits_lt_10 (n / 10) (by omega)]
    rfl

/-- `pad2` is nonempty. -/
theorem pad2_ne_nil (n : ℕ) : pad2 n ≠ [] := by
  unfold pad2
  split
  · simp
  · exact natDigits_ne_nil n

/-- Parsing a padded two-digit group gives the value back. -/
theorem digitsVal_pad2 (n : ℕ) : digitsVal (pad2 n) = n := by
  unfold pad2
  split
  · rename_i h10
    rw [natDigits_lt_10 n h10]
    show digitsVal ('0' :: [digitChar n]) = n
    have : ('0' :: [digitChar n]) = ['0'] ++ [digitChar n] := rfl
    rw [this, digitsVal_append, digitChar_toNat n h10]
    have h0 : digitsVal ['0'] = 0 := rfl
    rw [h0]
    omega
  · exact digitsVal_natDigits n

/-- `takeWhile` passes over a prefix it accepts entirely. -/
theorem takeWhile_append_all (p : Char → Bool) (l1 l2 : List Char)
    (h : ∀ c ∈ l1, p c = true) :
    (l1 ++ l2).takeWhile p = l1 ++ l2.takeWhile p := by
  induction l1 with
  | nil => rfl
  | cons c cs ih =>
    simp [List.cons_append, List.takeWhile_cons,
      h c (List.mem_cons_self c cs),
      ih (fun d hd => h d (List.mem_cons_of_mem c hd))]

/-- `dropWhile` consumes a prefix it accepts entirely. -/
theorem dropWhile_append_all (p : Char → Bool) (l1 l2 : List Char)
    (h : ∀ c ∈ l1, p c = true) :
    (l1 ++ l2).dropWhile p = l2.dropWhile p := by
  induction l1 with
  | nil => rfl
  | cons c cs ih =>
    simp [List.cons_append, List.dropWhile_cons,
      h c (List.mem_cons_self c cs),
      ih (fun d hd => h d (List.mem_cons_of_mem c hd))]

/-- `dropWhile isWhitespace` keeps a whitespace-free list intact. -/
theorem dropWhile_ws_of_no_ws (l : List Char)
    (h : ∀ c ∈ l, c.isWhitespace = false) :
    l.dropWhile Char.isWhitespace = l := by
  cases l with
  | nil => rfl
  | cons c cs => simp [List.dropWhile_cons, h c (List.mem_cons_self c cs)]

/-- Stripping a whitespace-free list is the identity. -/
theorem trimChars_of_no_ws (l : List Char)
    (h : ∀ c ∈ l, c.isWhitespace = false) : trimChars l = l := by
  unfold trimChars
  rw [dropWhile_ws_of_no_ws l h,
    dropWhile_ws_of_no_ws l.reverse (fun c hc => h c (by simpa using hc)),
    List.reverse_reverse]

/-- `splitDot` of a formatted numeral splits at the decimal point. -/
theorem splitDot_core (m : ℕ) :
    splitDot (natDigits (m / 100) ++ '.' :: pad2 (m % 100)) =
      (natDigits (m / 100), some (pad2 (m % 100))) := by
  have hint : ∀ c ∈ natDigits (m / 100), (!decide (c = '.')) = true := by
    intro c hc
    have := List.all_eq_true.1 (natDigits_all_digit (m / 100)) c hc
    simp [isDigit_ne_dot c this]
  unfold splitDot
  rw [takeWhile_append_all _ _ _ hint, dropWhile_append_all _ _ _ hint]
  simp [List.takeWhile_cons, List.dropWhile_cons]

/-- Parsing the unsigned and the negated two-decimal numeral for `m`
hundredths. -/
theorem parse_core (m : ℕ) :
    pyFloatParse? (natDigits (m / 100) ++ '.' :: pad2 (m % 100)) =
      some ((m : ℚ) / 100) ∧
    pyFloatParse? ('-' :: (natDigits (m / 100) ++ '.' :: pad2 (m % 100))) =
      some (-((m : ℚ) / 100)) := by
  have hint_digits : ∀ c ∈ natDigits (m / 100), c.isDigit = true := fun c hc =>
    List.all_eq_true.1 (natDigits_all_digit (m / 100)) c hc
  have hpad_digits : ∀ c ∈ pad2 (m % 100), c.isDigit = true := fun c hc =>
    List.all_eq_true.1 (pad2_all_digit (m % 100)) c hc
  have hnws : ∀ c ∈ natDigits (m / 100) ++ '.' :: pad2 (m % 100),
      c.isWhitespace = false := by
    intro c hc
    rcases List.mem_append.1 hc with hc | hc
    · exact isDigit_not_ws c (hint_digits c hc)
    · rcases List.mem_cons.1 hc with rfl | hc
      · rfl
      · exact isDigit_not_ws c (hpad_digits c hc)
  obtain ⟨dh, dt, hdht⟩ : ∃ dh dt, natDigits (m / 100) = dh :: dt := by
    cases hh : natDigits (m / 100) with
    | nil => exact absurd hh (natDigits_ne_nil _)
    | cons a b => exact ⟨a, b, rfl⟩
  have hdh : dh.isDigit = true :=
    hint_digits dh (by rw [hdht]; exact List.mem_cons_self _ _)
  have hvalue : ∀ sgn : ℚ, sgn * ((digitsVal (natDigits (m / 100)) : ℚ) +
      (digitsVal (pad2 (m % 100)) : ℚ) / 10 ^ (pad2 (m % 100)).length) =
      sgn * ((m : ℚ) / 100) := by
    intro sgn
    rw [digitsVal_natDigits, digitsVal_pad2,
      pad2_length _ (Nat.mod_lt _ (by omega))]
    have hmod : 100 * (m / 100) + m % 100 = m := Nat.div_add_mod m 100
    have hcast : (100 : ℚ) * ((m / 100 : ℕ) : ℚ) + ((m % 100 : ℕ) : ℚ) =
        (m : ℚ) := by exact_mod_cast hmod
    have : ((m / 100 : ℕ) : ℚ) + ((m % 100 : ℕ) : ℚ) / 10 ^ 2 =
        (m : ℚ) / 100 := by
      field_simp
      linarith
    rw [this]
  have hsign1 : signSplit (natDigits (m / 100) ++ '.' :: pad2 (m % 100)) =
      (1, natDigits (m / 100) ++ '.' :: pad2 (m % 100)) := by
    rw [hdht]
    show (if dh = '-' then ((-1 : ℚ), dt ++ '.' :: pad2 (m % 100))
      else if dh = '+' then (1, dt ++ '.' :: pad2 (m % 100))
      else (1, dh :: (dt ++ '.' :: pad2 (m % 100)))) = _
    rw [if_neg (isDigit_ne_minus dh hdh), if_neg (isDigit_ne_plus dh hdh)]
    rfl
  have hsign2 : signSplit ('-' :: (natDigits (m / 100) ++ '.' :: pad2 (m % 100))) =
      (-1, natDigits (m / 100) ++ '.' :: pad2 (m % 100)) := by
    show (if '-' = '-' then ((-1 : ℚ), natDigits (m / 100) ++ '.' :: pad2 (m % 100))
      else if '-' = '+' then (1, natDigits (m / 100) ++ '.' :: pad2 (m % 100))
      else (1, '-' :: (natDigits (m / 100) ++ '.' :: pad2 (m % 100)))) = _
    rw [if_pos rfl]
  constructor
  · unfold pyFloatParse?
    rw [trimChars_of_no_ws _ hnws]
    dsimp only
    rw [hsign1]
    dsimp only
    rw [splitDot_core m]
    dsimp only
    rw [if_neg (not_not_intro (natDigits_all_digit (m / 100))),
      if_neg (not_not_intro (pad2_all_digit (m % 100))),
      if_neg (fun hcon => (pad2_ne_nil (m % 100)) hcon.2),
      hvalue 1, one_mul]
  · unfold pyFloatParse?
    have hnws2 : ∀ c ∈ '-' :: (natDigits (m / 100) ++ '.' :: pad2 (m % 100)),
        c.isWhitespace = false := by
      intro c hc
      rcases List.mem_cons.1 hc with rfl | hc
      · rfl
      · exact hnws c hc
    rw [trimChars_of_no_ws _ hnws2]
    dsimp only
    rw [hsign2]
    dsimp only
    rw [splitDot_core m]
    dsimp only
    rw [if_neg (not_not_intro (natDigits_all_digit (m / 100))),
      if_neg (not_not_intro (pad2_all_digit (m % 100))),
      if_neg (fun hcon => (pad2_ne_nil (m % 100)) hcon.2),
      hvalue (-1), neg_one_mul]

/-- Round trip of one CSV cell: `float()` of `"%.2f" % x` denotes `x`
rounded to the nearest hundredth. -/
theorem pyFloatParse_fmt2 (x : ℚ) : pyFloatParse? (fmt2 x) = some (round2 x) := by
  by_cases hneg : round (100 * x) < 0
  · have hfmt : fmt2 x = '-' :: (natDigits ((round (100 * x)).natAbs / 100) ++
        '.' :: pad2 ((round (100 * x)).natAbs % 100)) := by
      unfold fmt2
      dsimp only
      rw [if_pos hneg]
      rfl
    rw [hfmt, (parse_core _).2]
    unfold round2
    congr 1
    rw [Int.cast_natAbs, abs_of_nonpos hneg.le]
    push_cast
    ring
  · have hfmt : fmt2 x = natDigits ((round (100 * x)).natAbs / 100) ++
        '.' :: pad2 ((round (100 * x)).natAbs % 100) := by
      unfold fmt2
      dsimp only
      rw [if_neg hneg]
      rfl
    rw [hfmt, (parse_core _).1]
    unfold round2
    congr 1
    rw [Int.cast_natAbs, abs_of_nonneg (not_lt.1 hneg)]

/-- The data rows written by `save_csv` parse back to the rounded
steps, provided every rounded temperature is in bounds. -/
theorem parseRowsAux_data (steps : List ScheduleStep) :
    ∀ i : ℕ,
    (∀ s ∈ steps, SETPOINT_MIN ≤ round2 s.temperature ∧
      round2 s.temperature ≤ SETPOINT_MAX) →
    parseRowsAux i
        (steps.map (fun s => [fmt2 s.elapsed_minutes, fmt2 s.temperature])) =
      .ok (steps.map round2Step) := by
  induction steps with
  | nil => intro i _; rfl
  | cons s rest ih =>
    intro i hb
    rw [List.map_cons, parseRowsAux]
    try dsimp only
    rw [pyFloatParse_fmt2, pyFloatParse_fmt2]
    try dsimp only
    rw [if_neg (not_not_intro (hb s (List.mem_cons_self s rest)))]
    rw [ih (i + 1) (fun t ht => hb t (List.mem_cons_of_mem s ht))]
    rfl

/-- The header row fails to parse as floats and is skipped. -/
theorem parseRowsAux_header (rest : List (List (List Char))) :
    parseRowsAux 0 (["elapsed_minutes".toList, "temperature_c".toList] :: rest) =
      parseRowsAux 1 rest := by
  rw [parseRowsAux]
  try dsimp only
  rw [show pyFloatParse? "elapsed_minutes".toList = none from rfl,
    show pyFloatParse? "temperature_c".toList = none from rfl]
  rfl

/-- Inserting below the head keeps the list intact. -/
theorem sortSteps_sorted (l : List ScheduleStep)
    (h : l.Pairwise (fun a b => a.elapsed_minutes ≤ b.elapsed_minutes)) :
    sortSteps l = l := by
  induction l with
  | nil => rfl
  | cons x rest ih =>
    show insertStep x (sortSteps rest) = x :: rest
    rw [ih (List.pairwise_cons.1 h).2]
    cases rest with
    | nil => rfl
    | cons y ys =>
      show insertStep x (y :: ys) = x :: y :: ys
      unfold insertStep
      rw [if_pos ((List.pairwise_cons.1 h).1 y (List.mem_cons_self y ys))]

/-- A strictly increasing step list has no duplicate minutes. -/
theorem duplicateMinutesList_nil (l : List ScheduleStep)
    (h : l.Pairwise (fun a b => a.elapsed_minutes < b.elapsed_minutes)) :
    duplicateMinutesList l = [] := by
  induction l with
  | nil => rfl
  | cons a rest ih =>
    cases rest with
    | nil => rfl
    | cons b rest2 =>
      have hab : a.elapsed_minutes < b.elapsed_minutes :=
        (List.pairwise_cons.1 h).1 b (List.mem_cons_self b rest2)
      rw [duplicateMinutesList]
      rw [if_neg (ne_of_lt hab)]
      rw [ih (List.pairwise_cons.1 h).2]
      rfl

/-- Rounding to hundredths is monotone. -/
theorem round2_mono (a b : ℚ) (h : a ≤ b) : round2 a ≤ round2 b := by
  unfold round2
  have h1 : round (100 * a) ≤ round (100 * b) := by
    rw [round_eq, round_eq]
    exact Int.floor_mono (by linarith)
  have h2 : ((round (100 * a) : ℤ) : ℚ) ≤ ((round (100 * b) : ℤ) : ℚ) := by
    exact_mod_cast h1
  linarith

/-- `round2` fixes the two setpoint bounds. -/
theorem round2_bounds : round2 SETPOINT_MIN = SETPOINT_MIN ∧
    round2 SETPOINT_MAX = SETPOINT_MAX := by
  constructor
  · have h : (100 : ℚ) * SETPOINT_MIN = ((-5000 : ℤ) : ℚ) := by
      norm_num [SETPOINT_MIN]
    rw [round2, h, round_intCast]
    norm_num [SETPOINT_MIN]
  · have h : (100 : ℚ) * SETPOINT_MAX = ((20000 : ℤ) : ℚ) := by
      norm_num [SETPOINT_MAX]
    rw [round2, h, round_intCast]
    norm_num [SETPOINT_MAX]

/-- Rounding to hundredths moves a value by at most half a hundredth. -/
theorem round2_close (x : ℚ) : |round2 x - x| ≤ 1 / 200 := by
  have h := abs_sub_round (100 * x)
  have heq : round2 x - x = -((100 * x - (round (100 * x) : ℤ)) / 100) := by
    unfold round2
    ring
  rw [heq, abs_neg, abs_div, abs_of_pos (by norm_num : (0 : ℚ) < 100)]
  linarith

/-- `Except.ok` feeds through a bind. -/
theorem exceptOkBind {ε α β : Type} (a : α) (f : α → Except ε β) :
    (Except.ok a >>= f : Except ε β) = f a := rfl

/-- `pure` feeds through a bind in `Except`. -/
theorem exceptPureBind {ε α β : Type} (a : α) (f : α → Except ε β) :
    (pure a >>= f : Except ε β) = f a := rfl

/-- C7 as amended: for a valid schedule whose elapsed-minute values are
still strictly increasing after rounding to two decimals (the precision
`save_csv` writes), saving and re-loading succeeds and yields each
step's values rounded to two decimals, which are within 0.005 of the
originals.  (Strictly increasing rounded minutes implies the schedule
invariant of strictly increasing minutes, by monotonicity of
rounding.) -/
theorem C7_roundtrip_amended (steps : List ScheduleStep)
    (hne : steps ≠ [])
    (hbound : ∀ s ∈ steps, SETPOINT_MIN ≤ s.temperature ∧
      s.temperature ≤ SETPOINT_MAX)
    (hround : steps.Pairwise
      (fun a b => round2 a.elapsed_minutes < round2 b.elapsed_minutes)) :
    save_then_load steps = .ok (steps.map round2Step) ∧
    (∀ s ∈ steps, |round2 s.elapsed_minutes - s.elapsed_minutes| ≤ 1 / 200 ∧
      |round2 s.temperature - s.temperature| ≤ 1 / 200) := by
  constructor
  · have hb2 : ∀ s ∈ steps, SETPOINT_MIN ≤ round2 s.temperature ∧
        round2 s.temperature ≤ SETPOINT_MAX := by
      intro s hs
      constructor
      · calc SETPOINT_MIN = round2 SETPOINT_MIN := round2_bounds.1.symm
          _ ≤ round2 s.temperature := round2_mono _ _ (hbound s hs).1
      · calc round2 s.temperature ≤ round2 SETPOINT_MAX :=
            round2_mono _ _ (hbound s hs).2
          _ = SETPOINT_MAX := round2_bounds.2
    have hsorted : (steps.map round2Step).Pairwise
        (fun a b => a.elapsed_minutes ≤ b.elapsed_minutes) := by
      rw [List.pairwise_map]
      exact hround.imp le_of_lt
    have hstrict : (steps.map round2Step).Pairwise
        (fun a b => a.elapsed_minutes < b.elapsed_minutes) := by
      rw [List.pairwise_map]
      exact hround
    have hmapne : ¬(steps.map round2Step = []) := by
      simpa using hne
    unfold save_then_load save_csv _parse_csv
    rw [parseRowsAux_header, parseRowsAux_data steps 1 hb2]
    show (if steps.map round2Step = [] then _ else _) = _
    rw [if_neg hmapne, sortSteps_sorted _ hsorted]
    dsimp only
    rw [duplicateMinutesList_nil _ hstrict]
    rfl
  · intro s _
    exact ⟨round2_close _, round2_close _⟩

/-- `round2` collapses 0.001 to 0. -/
theorem round2_milli : round2 (1 / 1000) = 0 := by
  have h1 : (100 : ℚ) * (1 / 1000) = 1 / 10 := by norm_num
  have h2 : round ((1 : ℚ) / 10) = 0 := by
    rw [round_eq]
    exact Int.floor_eq_iff.2 (by norm_num)
  rw [round2, h1, h2]
  norm_num

/-- `round2` collapses 0.002 to 0. -/
theorem round2_twomilli : round2 (1 / 500) = 0 := by
  have h1 : (100 : ℚ) * (1 / 500) = 1 / 5 := by norm_num
  have h2 : round ((1 : ℚ) / 5) = 0 := by
    rw [round_eq]
    exact Int.floor_eq_iff.2 (by norm_num)
  rw [round2, h1, h2]
  norm_num

/-- `round2` fixes 20. -/
theorem round2_twenty : round2 20 = 20 := by
  have h1 : (100 : ℚ) * 20 = ((2000 : ℤ) : ℚ) := by norm_num
  rw [round2, h1, round_intCast]
  norm_num

/-- `round2` fixes 30. -/
theorem round2_thirty : round2 30 = 30 := by
  have h1 : (100 : ℚ) * 30 = ((3000 : ℤ) : ℚ) := by norm_num
  rw [round2, h1, round_intCast]
  norm_num

/-- C7 counterexample: the schedule with steps `(0.001, 20)` and
`(0.002, 30)` is valid — nonempty, strictly increasing minutes,
temperatures in bounds — yet saving and re-loading it fails: `"%.2f"`
writes both minutes as `0.00`, so `load_csv` rejects the file for
duplicate elapsed-minute values instead of succeeding. -/
theorem C7_counterexample :
    (([⟨1/1000, 20⟩, ⟨1/500, 30⟩] : List ScheduleStep) ≠ []) ∧
    ([⟨1/1000, 20⟩, ⟨1/500, 30⟩] : List ScheduleStep).Pairwise
      (fun a b => a.elapsed_minutes < b.elapsed_minutes) ∧
    (∀ s ∈ ([⟨1/1000, 20⟩, ⟨1/500, 30⟩] : List ScheduleStep),
      SETPOINT_MIN ≤ s.temperature ∧ s.temperature ≤ SETPOINT_MAX) ∧
    save_then_load [⟨1/1000, 20⟩, ⟨1/500, 30⟩] =
      .error (.duplicateMinutes [0]) := by
  refine ⟨by simp, ?_, ?_, ?_⟩
  · norm_num [List.pairwise_cons]
  · intro s hs
    rcases List.mem_cons.1 hs with rfl | hs
    · norm_num [SETPOINT_MIN, SETPOINT_MAX]
    · rcases List.mem_cons.1 hs with rfl | hs
      · norm_num [SETPOINT_MIN, SETPOINT_MAX]
      · simp at hs
  · have hb2 : ∀ s ∈ ([⟨1/1000, 20⟩, ⟨1/500, 30⟩] : List ScheduleStep),
        SETPOINT_MIN ≤ round2 s.temperature ∧
        round2 s.temperature ≤ SETPOINT_MAX := by
      intro s hs
      rcases List.mem_cons.1 hs with rfl | hs
      · rw [show (⟨1/1000, 20⟩ : ScheduleStep).temperature = 20 from rfl,
          round2_twenty]
        norm_num [SETPOINT_MIN, SETPOINT_MAX]
      · rcases List.mem_cons.1 hs with rfl | hs
        · rw [show (⟨1/500, 30⟩ : ScheduleStep).temperature = 30 from rfl,
            round2_thirty]
          norm_num [SETPOINT_MIN, SETPOINT_MAX]
        · simp at hs
    have hmap : ([⟨1/1000, 20⟩, ⟨1/500, 30⟩] : List ScheduleStep).map round2Step =
        [⟨0, 20⟩, ⟨0, 30⟩] := by
      have hm1 : round2 ((1000 : ℚ)⁻¹) = 0 := by
        rw [show ((1000 : ℚ)⁻¹) = 1 / 1000 by norm_num]
        exact round2_milli
      have hm2 : round2 ((500 : ℚ)⁻¹) = 0 := by
        rw [show ((500 : ℚ)⁻¹) = 1 / 500 by norm_num]
        exact round2_twomilli
      simp [round2Step, hm1, hm2, round2_twenty, round2_thirty]
    unfold save_then_load save_csv _parse_csv
    rw [parseRowsAux_header,
      parseRowsAux_data [⟨1/1000, 20⟩, ⟨1/500, 30⟩] 1 hb2, hmap,
      exceptOkBind]
    try dsimp only
    rw [if_neg (by simp : ¬([⟨0, 20⟩, ⟨0, 30⟩] : List ScheduleStep) = [])]
    rw [exceptPureBind]
    try dsimp only
    have hsort : sortSteps [⟨0, 20⟩, ⟨0, 30⟩] = [⟨0, 20⟩, ⟨0, 30⟩] :=
      sortSteps_sorted _ (by norm_num [List.pairwise_cons])
    rw [hsort]
    have hdup : duplicateMinutesList [⟨0, 20⟩, ⟨0, 30⟩] = [0] := by
      rw [duplicateMinutesList]
      norm_num [duplicateMinutesList]
    rw [hdup]
    simp
    rfl

/-- `round2` fixes 0. -/
theorem round2_zero : round2 0 = 0 := by
  rw [round2, show (100 : ℚ) * 0 = ((0 : ℤ) : ℚ) by norm_num, round_intCast]
  norm_num

/-- `round2` fixes 10. -/
theorem round2_ten : round2 10 = 10 := by
  rw [round2, show (100 : ℚ) * 10 = ((1000 : ℤ) : ℚ) by norm_num, round_intCast]
  norm_num

/-- Witness for C7's amended claim on the schedule `(0, 20), (10, 30)`:
the round trip succeeds with the rounded (here unchanged) values. -/
theorem C7_roundtrip_amended_witness :
    save_then_load [⟨0, 20⟩, ⟨10, 30⟩] =
      .ok (([⟨0, 20⟩, ⟨10, 30⟩] : List ScheduleStep).map round2Step) ∧
    |round2 (0 : ℚ) - 0| ≤ 1 / 200 ∧ |round2 (20 : ℚ) - 20| ≤ 1 / 200 := by
  have hb : ∀ s ∈ ([⟨0, 20⟩, ⟨10, 30⟩] : List ScheduleStep),
      SETPOINT_MIN ≤ s.temperature ∧ s.temperature ≤ SETPOINT_MAX := by
    intro s hs
    rcases List.mem_cons.1 hs with rfl | hs
    · norm_num [SETPOINT_MIN, SETPOINT_MAX]
    · rcases List.mem_cons.1 hs with rfl | hs
      · norm_num [SETPOINT_MIN, SETPOINT_MAX]
      · simp at hs
  have hr : ([⟨0, 20⟩, ⟨10, 30⟩] : List ScheduleStep).Pairwise
      (fun a b => round2 a.elapsed_minutes < round2 b.elapsed_minutes) := by
    simp only [List.pairwise_cons, List.mem_cons, List.not_mem_nil]
    refine ⟨?_, by simp, by simp⟩
    intro b hb2
    rcases hb2 with rfl | hb2
    · show round2 0 < round2 10
      rw [round2_zero, round2_ten]
      norm_num
    · simp at hb2
  have h := C7_roundtrip_amended [⟨0, 20⟩, ⟨10, 30⟩] (by simp) hb hr
  exact ⟨h.1, (h.2 ⟨0, 20⟩ (List.mem_cons_self _ _)).1,
    (h.2 ⟨0, 20⟩ (List.mem_cons_self _ _)).2⟩
